import Mathlib

/-!
Verification development for the r-redis repository: a shallow embedding of
its RESP codec (the per-type `resp` implementation and the winnow-based
`respv2` implementation), of the legacy combined decoder in
`src/resp/decode.rs`, of the command layer (`src/cmd`), and of the backend
set operations (`src/backend/mod.rs`).

Modelling conventions, used throughout:
* Bytes are `Nat` and byte buffers are `List Nat`; Rust `String` values are
  represented by their UTF-8 bytes.  `String::from_utf8_lossy` is modelled as
  the identity on the byte list (no claim below depends on the replacement
  behaviour on invalid UTF-8), while the fallible `String::from_utf8` is
  modelled by a real UTF-8 validity check.
* `f64` is modelled by the type `F64` below: NaN, the two infinities, and
  finite values represented exactly as rationals.  IEEE rounding and the
  digit output of Rust's `Display`/`LowerExp` formatters are outside the
  scope of the claims settled here; the double encoder is embedded at the
  level of its branch structure (scientific form or plain form, and the
  sign prefixing), which is what the claims are about, plus an explicit
  byte rendering for the non-finite cases the tests pin down.
* Error payload strings (the `format!` messages carried by the Rust error
  enums) are dropped: errors are compared by constructor only, which is all
  the claims inspect.  `src/resp/err.rs` and `src/cmd/err.rs` are not in
  the source tree; the error enums are modelled from the spec's §7 error
  taxonomy and from the constructors used at the call sites.
* Unbounded recursion over buffers is expressed with an explicit `fuel`
  parameter that strictly decreases on every recursive call.  Fuel is an
  embedding artifact only: concrete evaluations instantiate it large
  enough, and universally quantified theorems quantify over it.
-/

/-- Byte buffers: Rust `&[u8]` / `Vec<u8>` / `BytesMut` are byte lists. -/
abbrev ByteSeq := List Nat

/-- The two-byte CRLF terminator `\r\n`. -/
def crlfBytes : ByteSeq := [13, 10]

/-- ASCII decimal digit test (`0..9`). -/
def isDigitByte (b : Nat) : Bool := 48 ≤ b && b ≤ 57

/-- Digits of a `Nat` in base 10 as ASCII bytes (Rust `format!` of an unsigned). -/
def natRender (n : Nat) : ByteSeq := (Nat.toDigits 10 n).map Char.toNat

/-- ASCII rendering of an `i64` (Rust `format!` of a signed integer). -/
def intRender (i : Int) : ByteSeq :=
  if i < 0 then 45 :: natRender i.natAbs else natRender i.natAbs

/-- Fold ASCII digit bytes into the `Nat` they denote. -/
def digitsToNat (ds : ByteSeq) : Nat := ds.foldl (fun a d => a * 10 + (d - 48)) 0

/-- Largest `i64` value, `2^63 - 1`; digit sequences above it overflow `i64`. -/
def i64Max : Nat := 9223372036854775807

/-- Smallest `i64` magnitude on the negative side, `2^63`. -/
def i64NegMax : Nat := 9223372036854775808

/-- Model of `str::parse::<i64>`: optional sign, one or more digits, strict range check. -/
def parseI64 (s : ByteSeq) : Option Int :=
  let core (ds : ByteSeq) (neg : Bool) : Option Int :=
    if ds.isEmpty || !(ds.all isDigitByte) then none
    else
      let n := digitsToNat ds
      if neg then if n ≤ i64NegMax then some (-(n : Int)) else none
      else if n ≤ i64Max then some (n : Int) else none
  match s with
  | 43 :: rest => core rest false
  | 45 :: rest => core rest true
  | _ => core s false

/-- ASCII-lowercase a byte buffer (`u8::to_ascii_lowercase` mapped). -/
def asciiLower (s : ByteSeq) : ByteSeq :=
  s.map (fun b => if 65 ≤ b && b ≤ 90 then b + 32 else b)

/-- Strict lexicographic order on byte buffers: the `Ord` used by
`BTreeMap<String, _>` keys (Rust `String` compares by UTF-8 bytes). -/
def byteSeqLt : ByteSeq → ByteSeq → Bool
  | [], [] => false
  | [], _ :: _ => true
  | _ :: _, [] => false
  | a :: as, b :: bs => if a < b then true else if b < a then false else byteSeqLt as bs

/-- UTF-8 validity of a byte buffer, the success condition of
`String::from_utf8`.  Standard four-range classification of the RFC 3629
encoding, including the surrogate and overlong exclusions. -/
def validUtf8 : ByteSeq → Bool
  | [] => true
  | b :: rest =>
    if b ≤ 127 then validUtf8 rest
    else if 194 ≤ b && b ≤ 223 then
      match rest with
      | c1 :: r => 128 ≤ c1 && c1 ≤ 191 && validUtf8 r
      | _ => false
    else if b = 224 then
      match rest with
      | c1 :: c2 :: r => 160 ≤ c1 && c1 ≤ 191 && 128 ≤ c2 && c2 ≤ 191 && validUtf8 r
      | _ => false
    else if 225 ≤ b && b ≤ 236 then
      match rest with
      | c1 :: c2 :: r => 128 ≤ c1 && c1 ≤ 191 && 128 ≤ c2 && c2 ≤ 191 && validUtf8 r
      | _ => false
    else if b = 237 then
      match rest with
      | c1 :: c2 :: r => 128 ≤ c1 && c1 ≤ 159 && 128 ≤ c2 && c2 ≤ 191 && validUtf8 r
      | _ => false
    else if 238 ≤ b && b ≤ 239 then
      match rest with
      | c1 :: c2 :: r => 128 ≤ c1 && c1 ≤ 191 && 128 ≤ c2 && c2 ≤ 191 && validUtf8 r
      | _ => false
    else if b = 240 then
      match rest with
      | c1 :: c2 :: c3 :: r =>
        144 ≤ c1 && c1 ≤ 191 && 128 ≤ c2 && c2 ≤ 191 && 128 ≤ c3 && c3 ≤ 191 && validUtf8 r
      | _ => false
    else if 241 ≤ b && b ≤ 243 then
      match rest with
      | c1 :: c2 :: c3 :: r =>
        128 ≤ c1 && c1 ≤ 191 && 128 ≤ c2 && c2 ≤ 191 && 128 ≤ c3 && c3 ≤ 191 && validUtf8 r
      | _ => false
    else if b = 244 then
      match rest with
      | c1 :: c2 :: c3 :: r =>
        128 ≤ c1 && c1 ≤ 143 && 128 ≤ c2 && c2 ≤ 191 && 128 ≤ c3 && c3 ≤ 191 && validUtf8 r
      | _ => false
    else false

/-- Model of `f64`: NaN, the infinities, and exact finite values. -/
inductive F64 where
  | nan : F64
  | inf : F64
  | neginf : F64
  | num (q : ℚ) : F64
deriving DecidableEq

/-- Model of `f64::abs`. -/
def f64Abs : F64 → F64
  | .nan => .nan
  | .inf => .inf
  | .neginf => .inf
  | .num q => .num |q|

/-- Model of `f64::is_nan`. -/
def f64IsNan : F64 → Bool
  | .nan => true
  | _ => false

/-- IEEE `>` against a rational constant: NaN compares false. -/
def f64GtQ : F64 → ℚ → Bool
  | .nan, _ => false
  | .inf, _ => true
  | .neginf, _ => false
  | .num q, c => decide (c < q)

/-- IEEE `<` against a rational constant: NaN compares false. -/
def f64LtQ : F64 → ℚ → Bool
  | .nan, _ => false
  | .inf, _ => false
  | .neginf, _ => true
  | .num q, c => decide (q < c)

/-- Rust `PartialEq` on `f64`: NaN is not equal to itself. -/
def f64PartialEq : F64 → F64 → Bool
  | .nan, _ => false
  | _, .nan => false
  | .inf, .inf => true
  | .neginf, .neginf => true
  | .num a, .num b => decide (a = b)
  | _, _ => false

/-- The scientific-form test of the double encoder
(`src/resp/double.rs` line 29 and `src/resp/encode.rs` line 151):
`self.abs() > 1e+8 || self.abs() < 1e-8`. -/
def f64IsScientific (x : F64) : Bool :=
  f64GtQ (f64Abs x) 100000000 || f64LtQ (f64Abs x) (1 / 100000000)

/-- Branch structure of the double encoder, from `src/resp/double.rs`
lines 27-38: first component is true when the scientific (`{:e}`) branch is
taken, second component is true when the plain branch emits the `+` sign
(`self < 0.0 || self.is_nan()` suppresses it; the scientific branch never
adds a `+`).  The digit rendering of the chosen form is abstracted. -/
def f64EncodeShape (x : F64) : Bool × Bool :=
  if f64IsScientific x then (true, false)
  else (false, !(f64LtQ x 0 || f64IsNan x))

/-- Written from the spec's words in §4.1 (claim C7): scientific form exactly
when `|x| > 1e8` or `0 < |x| < 1e-8`. -/
def specDoubleScientific (x : F64) : Bool :=
  f64GtQ (f64Abs x) 100000000 ||
    (f64GtQ (f64Abs x) 0 && f64LtQ (f64Abs x) (1 / 100000000))

/-- Spec-side restatement of the amended scientific condition, by direct case
analysis: `|x| > 1e8` or `|x| < 1e-8`, with zero included in the second range. -/
def specDoubleScientificAmended : F64 → Bool
  | .nan => false
  | .inf => true
  | .neginf => true
  | .num q => decide (100000000 < |q|) || decide (|q| < 1 / 100000000)

/-- Spec-side plus-sign condition for the plain form: non-negative finite. -/
def specPlusSign : F64 → Bool
  | .num q => decide (0 ≤ q)
  | _ => false

/-- The RESP frame model of `src/resp/resp_frame.rs` (the per-type
generation): `SimpleString`, `Error`, `Null`, `Integer`, `BulkString`,
`Array`, `Boolean`, `Double`, `Map`, `Set`.  The null bulk string (the
`(true, vec![])` state of `BulkString(bool, Vec<u8>)`, written
`BulkString(None)` in the command and respv2 layers) is `bulkString none`;
the null array of `RespArray(Option<Vec<_>>)` is `array none`.  `RespMap`'s
`BTreeMap<String, RespFrame>` is a key-sorted association list maintained
by `mapInsert` below. -/
inductive RespFrame where
  | simpleString (s : ByteSeq) : RespFrame
  | error (s : ByteSeq) : RespFrame
  | null : RespFrame
  | integer (i : Int) : RespFrame
  | bulkString (b : Option ByteSeq) : RespFrame
  | array (a : Option (List RespFrame)) : RespFrame
  | boolean (b : Bool) : RespFrame
  | double (d : F64) : RespFrame
  | map (m : List (ByteSeq × RespFrame)) : RespFrame
  | set (s : List RespFrame) : RespFrame

mutual

/-- Rust `PartialEq` on `RespFrame`: structural equality except that doubles
compare by IEEE equality (NaN ≠ NaN). -/
def frameEq : RespFrame → RespFrame → Bool
  | .simpleString a, .simpleString b => a == b
  | .error a, .error b => a == b
  | .null, .null => true
  | .integer a, .integer b => a == b
  | .bulkString a, .bulkString b => a == b
  | .array none, .array none => true
  | .array (some a), .array (some b) => frameListEq a b
  | .boolean a, .boolean b => a == b
  | .double a, .double b => f64PartialEq a b
  | .map a, .map b => framePairsEq a b
  | .set a, .set b => frameListEq a b
  | _, _ => false

/-- Elementwise `PartialEq` on frame lists (`Vec<RespFrame>`). -/
def frameListEq : List RespFrame → List RespFrame → Bool
  | [], [] => true
  | a :: as, b :: bs => frameEq a b && frameListEq as bs
  | _, _ => false

/-- Elementwise `PartialEq` on the sorted map entries (`BTreeMap` compares
as its ordered sequence of pairs). -/
def framePairsEq : List (ByteSeq × RespFrame) → List (ByteSeq × RespFrame) → Bool
  | [], [] => true
  | (k, v) :: as, (k2, v2) :: bs => k == k2 && frameEq v v2 && framePairsEq as bs
  | _, _ => false

end

/-- Model of `Vec::contains` on frames, via `PartialEq`. -/
def containsFrame (data : List RespFrame) (f : RespFrame) : Bool :=
  data.any (fun g => frameEq g f)

/-- Model of `BTreeMap::insert` on the sorted association list: keeps keys strictly
increasing, replaces the value on an equal key. -/
def mapInsert (k : ByteSeq) (v : RespFrame) :
    List (ByteSeq × RespFrame) → List (ByteSeq × RespFrame)
  | [] => [(k, v)]
  | (k2, v2) :: rest =>
    if byteSeqLt k k2 then (k, v) :: (k2, v2) :: rest
    else if k == k2 then (k, v) :: rest
    else (k2, v2) :: mapInsert k v rest

/-- Payload bytes of a bulk string as seen through its `Deref` to `Vec<u8>`:
the null bulk string carries the empty vector (`BulkString(true, vec![])`). -/
def bulkToVec : Option ByteSeq → ByteSeq
  | some v => v
  | none => []

/-- The error enum of the codec.  Modelled from the spec: `src/resp/err.rs`
is absent from the tree; constructors follow §7's taxonomy and the variants
used at the call sites (`NotCompleted`, `InvalidFrame`, `InvalidFrameType`,
and the wrapped integer/float parse errors).  Message payloads are dropped. -/
inductive RespError where
  | NotCompleted : RespError
  | InvalidFrame : RespError
  | InvalidFrameType : RespError
  | ParseIntError : RespError
  | ParseFloatError : RespError
deriving DecidableEq

/-! ## Encoders (the per-type `RespEncode` implementations) -/

/-- Model of `+<text>\r\n` (`src/resp/simple_string.rs` lines 28-32). -/
def simpleStringEncode (s : ByteSeq) : ByteSeq := 43 :: s ++ crlfBytes

/-- Model of `-<text>\r\n` (`src/resp/simple_error.rs` lines 36-40). -/
def simpleErrorEncode (s : ByteSeq) : ByteSeq := 45 :: s ++ crlfBytes

/-- Model of `:<i64>\r\n` (`src/resp/integer.rs` lines 14-18). -/
def integerEncode (i : Int) : ByteSeq := 58 :: intRender i ++ crlfBytes

/-- Model of `#t\r\n` / `#f\r\n` (`src/resp/boolean.rs` lines 8-12). -/
def booleanEncode (b : Bool) : ByteSeq := 35 :: (if b then [116] else [102]) ++ crlfBytes

/-- Model of `_\r\n` (`src/resp/null.rs` lines 28-32). -/
def nullEncode : ByteSeq := [95, 13, 10]

/-- Model of `$-1\r\n` for the null bulk string, else `$<len>\r\n<data>\r\n`
(`src/resp/bulk_string.rs` lines 26-37). -/
def bulkStringEncode : Option ByteSeq → ByteSeq
  | none => [36, 45, 49, 13, 10]
  | some v => 36 :: natRender v.length ++ crlfBytes ++ v ++ crlfBytes

/-- Byte rendering of the double encoder.  The branch selection and sign
prefix follow `src/resp/double.rs` lines 27-38 through `f64EncodeShape`;
`nan` / `inf` / `-inf` render to the bytes the repository's tests pin down
(`,nan\r\n`, `,inf\r\n`, `,-inf\r\n`); the digit output of Rust's float
formatters on finite values is abstracted to an exact positional rendering
of the rational (no settled claim evaluates it). -/
def f64Render (x : F64) : ByteSeq :=
  match x with
  | .nan => [110, 97, 110]
  | .inf => [105, 110, 102]
  | .neginf => [45, 105, 110, 102]
  | .num q =>
    let sign : ByteSeq := if q < 0 then [45] else if (f64EncodeShape (.num q)).2 then [43] else []
    sign ++ natRender q.num.natAbs ++ [47] ++ natRender q.den

/-- Model of `,<rendered double>\r\n`. -/
def doubleEncode (x : F64) : ByteSeq := 44 :: f64Render x ++ crlfBytes

mutual

/-- Model of `RespEncode` dispatch over the frame model: each variant delegates to
its per-type encoder; containers prefix their element count and concatenate
the element encodings (`src/resp/array.rs` lines 54-68, `src/resp/map.rs`
lines 37-47, `src/resp/set.rs` lines 24-33).  The map iterates its
`BTreeMap` in key order, which is the order of the sorted list. -/
def frameEncode : RespFrame → ByteSeq
  | .simpleString s => simpleStringEncode s
  | .error s => simpleErrorEncode s
  | .null => nullEncode
  | .integer i => integerEncode i
  | .bulkString b => bulkStringEncode b
  | .array none => [42, 45, 49, 13, 10]
  | .array (some v) => 42 :: natRender v.length ++ crlfBytes ++ frameListEncode v
  | .boolean b => booleanEncode b
  | .double d => doubleEncode d
  | .map m => 37 :: natRender m.length ++ crlfBytes ++ framePairsEncode m
  | .set s => 126 :: natRender s.length ++ crlfBytes ++ frameListEncode s

/-- Concatenated encodings of a frame sequence. -/
def frameListEncode : List RespFrame → ByteSeq
  | [] => []
  | f :: rest => frameEncode f ++ frameListEncode rest

/-- Concatenated `+key\r\n` then value encodings of the map entries. -/
def framePairsEncode : List (ByteSeq × RespFrame) → ByteSeq
  | [] => []
  | (k, v) :: rest => simpleStringEncode k ++ frameEncode v ++ framePairsEncode rest

end

/-! ## The `respv2` winnow parser (`src/respv2/parser.rs`) -/

/-- Model of `terminated(take_until(0.., CRLF), CRLF)`: the bytes before the first
CRLF and the remainder after it; fails when no CRLF is present. -/
def takeUntilCRLF : ByteSeq → Option (ByteSeq × ByteSeq)
  | 13 :: 10 :: rest => some ([], rest)
  | b :: rest =>
    match takeUntilCRLF rest with
    | some (pre, post) => some (b :: pre, post)
    | none => none
  | [] => none

/-- The `integer` parser of `src/respv2/parser.rs` lines 40-45: optional
`+`/`-` sign, `digit1` parsed into an `i64` (overflow fails), then CRLF. -/
def v2Integer (input : ByteSeq) : Option (Int × ByteSeq) :=
  let core (s : ByteSeq) (sign : Int) : Option (Int × ByteSeq) :=
    let ds := s.takeWhile isDigitByte
    let rest := s.dropWhile isDigitByte
    if ds.isEmpty then none
    else
      let n := digitsToNat ds
      if n ≤ i64Max then
        match rest with
        | 13 :: 10 :: r => some (sign * (n : Int), r)
        | _ => none
      else none
  match input with
  | 43 :: rest => core rest 1
  | 45 :: rest => core rest (-1)
  | _ => core input 1

/-- The finite-value grammar accepted by winnow's `float` up to the CRLF,
parsed exactly into `F64`: `inf` / `infinity` / `nan` (with optional sign),
or sign, digits, optional fraction, optional exponent.  IEEE rounding of
the decimal into a `f64` is abstracted into the exact rational. -/
def parseF64Body (s : ByteSeq) : Option F64 :=
  let unsigned (t : ByteSeq) (neg : Bool) : Option F64 :=
    if t = [105, 110, 102] || t = [105, 110, 102, 105, 110, 105, 116, 121] then
      some (if neg then .neginf else .inf)
    else if t = [110, 97, 110] then some .nan
    else
      let ipart := t.takeWhile isDigitByte
      let t1 := t.dropWhile isDigitByte
      if ipart.isEmpty then none
      else
        let withFrac : Option (ℚ × ByteSeq) :=
          match t1 with
          | 46 :: t2 =>
            let fpart := t2.takeWhile isDigitByte
            let t3 := t2.dropWhile isDigitByte
            if fpart.isEmpty then none
            else
              some ((digitsToNat ipart : ℚ) +
                (digitsToNat fpart : ℚ) / ((10 : ℚ) ^ fpart.length), t3)
          | _ => some ((digitsToNat ipart : ℚ), t1)
        match withFrac with
        | none => none
        | some (mag, t3) =>
          let applyExp (mag : ℚ) (t4 : ByteSeq) : Option ℚ :=
            match t4 with
            | [] => some mag
            | 101 :: t5 | 69 :: t5 =>
              let enegp := match t5 with
                | 45 :: t6 => (true, t6)
                | 43 :: t6 => (false, t6)
                | _ => (false, t5)
              let eds := enegp.2.takeWhile isDigitByte
              let t7 := enegp.2.dropWhile isDigitByte
              if eds.isEmpty || !t7.isEmpty then none
              else
                let e := digitsToNat eds
                some (if enegp.1 then mag / ((10 : ℚ) ^ e) else mag * ((10 : ℚ) ^ e))
            | _ => none
          match applyExp mag t3 with
          | none => none
          | some m => some (.num (if neg then -m else m))
  match s with
  | 45 :: rest => unsigned rest true
  | 43 :: rest => unsigned rest false
  | _ => unsigned s false

/-- Model of `terminated(float, CRLF)` (`src/respv2/parser.rs` lines 99-101). -/
def v2Double (input : ByteSeq) : Option (RespFrame × ByteSeq) :=
  match takeUntilCRLF input with
  | some (content, rest) =>
    match parseF64Body content with
    | some x => some (.double x, rest)
    | none => none
  | none => none

/-- Model of `bulk_string` (`src/respv2/parser.rs` lines 54-65): length via `integer`,
zero yields the empty bulk without consuming more, negative fails, else
`length` data bytes and CRLF. -/
def v2BulkString (input : ByteSeq) : Option (RespFrame × ByteSeq) :=
  match v2Integer input with
  | none => none
  | some (len, rest) =>
    if len = 0 then some (.bulkString (some []), rest)
    else if len < 0 then none
    else
      let n := len.toNat
      if rest.length < n + 2 then none
      else
        let data := rest.take n
        match rest.drop n with
        | 13 :: 10 :: r => some (.bulkString (some data), r)
        | _ => none

mutual

/-- Model of `parse_frame` (`src/respv2/parser.rs` lines 13-27): one dispatch byte,
then the per-variant parser.  There is no `~` (Set) branch in the source;
an unknown dispatch byte fails.  Fuel strictly decreases on every call. -/
def v2ParseFrame : Nat → ByteSeq → Option (RespFrame × ByteSeq)
  | 0, _ => none
  | _ + 1, [] => none
  | fuel + 1, b :: rest =>
    if b = 43 then
      match takeUntilCRLF rest with
      | some (s, r) => some (.simpleString s, r)
      | none => none
    else if b = 45 then
      match takeUntilCRLF rest with
      | some (s, r) => some (.error s, r)
      | none => none
    else if b = 58 then
      match v2Integer rest with
      | some (i, r) => some (.integer i, r)
      | none => none
    else if b = 36 then
      match rest with
      | 45 :: 49 :: 13 :: 10 :: r => some (.bulkString none, r)
      | _ => v2BulkString rest
    else if b = 42 then
      match rest with
      | 45 :: 49 :: 13 :: 10 :: r => some (.array none, r)
      | _ => v2Array fuel rest
    else if b = 95 then
      match rest with
      | 13 :: 10 :: r => some (.null, r)
      | _ => none
    else if b = 35 then
      match rest with
      | 116 :: 13 :: 10 :: r => some (.boolean true, r)
      | 102 :: 13 :: 10 :: r => some (.boolean false, r)
      | _ => none
    else if b = 44 then v2Double rest
    else if b = 37 then v2Map fuel rest
    else none

/-- Model of `array` (`src/respv2/parser.rs` lines 74-86): count via `integer`, zero
yields the empty array, negative fails, else `count` nested frames. -/
def v2Array : Nat → ByteSeq → Option (RespFrame × ByteSeq)
  | 0, _ => none
  | fuel + 1, input =>
  match v2Integer input with
  | none => none
  | some (len, rest) =>
    if len = 0 then some (.array (some []), rest)
    else if len < 0 then none
    else
      match v2ParseFrames fuel len.toNat rest with
      | some (elems, r) => some (.array (some elems), r)
      | none => none

/-- Model of `count` successive `parse_frame` calls (the loop in `array`). -/
def v2ParseFrames : Nat → Nat → ByteSeq → Option (List RespFrame × ByteSeq)
  | 0, _, _ => none
  | _ + 1, 0, input => some ([], input)
  | fuel + 1, n + 1, input =>
    match v2ParseFrame fuel input with
    | some (f, rest) =>
      match v2ParseFrames fuel n rest with
      | some (l, r) => some (f :: l, r)
      | none => none
    | none => none

/-- Model of `map` (`src/respv2/parser.rs` lines 103-116): length via `integer`,
non-positive fails, then `len / 2` pairs of a `+`-prefixed key and a nested
frame, inserted into the `BTreeMap`. -/
def v2Map : Nat → ByteSeq → Option (RespFrame × ByteSeq)
  | 0, _ => none
  | fuel + 1, input =>
  match v2Integer input with
  | none => none
  | some (len, rest) =>
    if len ≤ 0 then none
    else
      match v2MapPairs fuel (len.toNat / 2) rest [] with
      | some (m, r) => some (.map m, r)
      | none => none

/-- The pair loop of `map`: `preceded('+', parse_string)` for the key, then
`parse_frame` for the value, accumulated by `BTreeMap::insert`. -/
def v2MapPairs : Nat → Nat → ByteSeq → List (ByteSeq × RespFrame) →
    Option (List (ByteSeq × RespFrame) × ByteSeq)
  | 0, _, _, _ => none
  | _ + 1, 0, input, acc => some (acc, input)
  | fuel + 1, n + 1, input, acc =>
    match input with
    | 43 :: rest =>
      match takeUntilCRLF rest with
      | some (key, r1) =>
        match v2ParseFrame fuel r1 with
        | some (v, r2) => v2MapPairs fuel n r2 (mapInsert key v acc)
        | none => none
      | none => none
    | _ => none

end

/-! ## The `respv2` length scanner (`src/respv2/parser_len.rs`) -/

/-- Model of `bulk_string_len` (`src/respv2/parser_len.rs` lines 60-80): length via
`integer`; `-1` and `0` return at once; below `-1` fails; otherwise the
`len + 2` data-and-CRLF bytes must be present and are skipped unchecked. -/
def v2BulkLen (input : ByteSeq) : Option ByteSeq :=
  match v2Integer input with
  | none => none
  | some (len, rest) =>
    if len = -1 || len = 0 then some rest
    else if len < -1 then none
    else
      let n := len.toNat + 2
      if rest.length < n then none else some (rest.drop n)

mutual

/-- Model of `parse_frame_len` (`src/respv2/parser_len.rs` lines 29-45): simple
variants skip to the first CRLF; `$`, `*`, `%` have dedicated scanners;
there is no `~` (Set) branch; an unknown dispatch byte fails. -/
def v2FrameLen : Nat → ByteSeq → Option ByteSeq
  | 0, _ => none
  | _ + 1, [] => none
  | fuel + 1, b :: rest =>
    if b = 43 || b = 45 || b = 58 || b = 95 || b = 35 || b = 44 then
      match takeUntilCRLF rest with
      | some (_, r) => some r
      | none => none
    else if b = 36 then v2BulkLen rest
    else if b = 42 then v2ArrayLen fuel rest
    else if b = 37 then v2MapLen fuel rest
    else none

/-- Model of `array_len` (`src/respv2/parser_len.rs` lines 47-58): `0` and `-1`
return at once, below `-1` fails, else `len` nested frame scans. -/
def v2ArrayLen : Nat → ByteSeq → Option ByteSeq
  | 0, _ => none
  | fuel + 1, input =>
  match v2Integer input with
  | none => none
  | some (len, rest) =>
    if len = 0 || len = -1 then some rest
    else if len < -1 then none
    else v2FrameLenLoop fuel len.toNat rest

/-- Model of `len` successive `parse_frame_len` calls (the loop in `array_len`). -/
def v2FrameLenLoop : Nat → Nat → ByteSeq → Option ByteSeq
  | 0, _, _ => none
  | _ + 1, 0, input => some input
  | fuel + 1, n + 1, input =>
    match v2FrameLen fuel input with
    | some rest => v2FrameLenLoop fuel n rest
    | none => none

/-- Model of `map_len` (`src/respv2/parser_len.rs` lines 82-97): non-positive length
fails; then `len / 2` iterations of a key skip (to the first CRLF) and one
nested frame scan. -/
def v2MapLen : Nat → ByteSeq → Option ByteSeq
  | 0, _ => none
  | fuel + 1, input =>
  match v2Integer input with
  | none => none
  | some (len, rest) =>
    if len ≤ 0 then none
    else v2MapLenLoop fuel (len.toNat / 2) rest

/-- The pair loop of `map_len`. -/
def v2MapLenLoop : Nat → Nat → ByteSeq → Option ByteSeq
  | 0, _, _ => none
  | _ + 1, 0, input => some input
  | fuel + 1, n + 1, input =>
    match takeUntilCRLF input with
    | some (_, r1) =>
      match v2FrameLen fuel r1 with
      | some r2 => v2MapLenLoop fuel n r2
      | none => none
    | none => none

end

/-- Model of `parse_frame_length` (`src/respv2/parser_len.rs` lines 16-27): the
number of bytes the scanner consumed on success; every scanner failure is
collapsed into `NotCompleted`. -/
def parse_frame_length (input : ByteSeq) : Except RespError Nat :=
  match v2FrameLen (input.length + 1) input with
  | some rest => .ok (input.length - rest.length)
  | none => .error .NotCompleted

/-- Model of `RespDecodeV2::expect_length` for `RespFrame` (`src/respv2/mod.rs`
lines 21-23). -/
def v2ExpectLength (buf : ByteSeq) : Except RespError Nat := parse_frame_length buf

/-- Model of `RespDecodeV2::decode` for `RespFrame` (`src/respv2/mod.rs` lines
15-20): scan the length, `split_to` that prefix out of the buffer, and run
`parse_frame` on the split-off data; a parse failure is `InvalidFrame`.
Returns the result together with the buffer left behind (the split happens
before parsing, so on a parse failure the prefix is already consumed). -/
def v2Decode (buf : ByteSeq) : Except RespError RespFrame × ByteSeq :=
  match parse_frame_length buf with
  | .error e => (.error e, buf)
  | .ok len =>
    let data := buf.take len
    let rest := buf.drop len
    match v2ParseFrame (data.length + 1) data with
    | some (f, _) => (.ok f, rest)
    | none => (.error .InvalidFrame, rest)

/-- The `Decoder` impl of `RespFrameCodec` (`src/network.rs` lines 34-45):
`NotCompleted` becomes `Ok(None)` (wait for more bytes, buffer untouched);
success yields the frame; any other decode error is turned into a
`SimpleError` frame handed to the request pipeline as if the client had
sent it.  The connection is closed only when the framed stream itself
errors, which this impl never produces. -/
def respFrameCodecDecode (buf : ByteSeq) : Option RespFrame × ByteSeq :=
  match v2Decode buf with
  | (.error .NotCompleted, _) => (none, buf)
  | (.ok f, rest) => (some f, rest)
  | (.error _, rest) => (some (.error []), rest)

/-! ## The per-type `resp` codec (`src/resp/*.rs`, the generation with
`expect_length`) -/

/-- Scan of `find_crlf` starting at index `i` over the remaining bytes. -/
def findCrlfAux : Nat → ByteSeq → Option Nat
  | i, 13 :: 10 :: _ => some i
  | i, _ :: rest => findCrlfAux (i + 1) rest
  | _, [] => none

/-- Model of `find_crlf` (`src/resp/decode.rs` lines 242-244): first index in
`1 .. len-1` whose byte is `\r` followed by `\n`. -/
def find_crlf (buf : ByteSeq) : Option Nat :=
  match buf with
  | [] => none
  | _ :: rest => findCrlfAux 1 rest

/-- Model of `extract_simple_frame_data` (`src/resp/decode.rs` lines 223-240):
buffers of at most three bytes are incomplete; the first byte must be the
variant's one-byte prefix; the result is the index of the terminating CRLF. -/
def extract_simple_frame_data (pfx : Nat) (buf : ByteSeq) : Except RespError Nat :=
  if buf.length ≤ 3 then .error .NotCompleted
  else
    match buf with
    | b :: _ =>
      if b ≠ pfx then .error .InvalidFrameType
      else
        match find_crlf buf with
        | some e => .ok e
        | none => .error .NotCompleted
    | [] => .error .NotCompleted

/-- Modelled from the spec: `parse_length` of the per-type codec is declared
by the callers in `src/resp/{array,map,set,bulk_string}.rs` but its body is
absent from the tree.  Per §4.2 and the call sites it reads the header
without consuming: the CRLF index and the signed count between the prefix
byte and the CRLF (`-1` is legal for `$` and `*`). -/
def parse_length (pfx : Nat) (buf : ByteSeq) : Except RespError (Nat × Int) :=
  match extract_simple_frame_data pfx buf with
  | .error e => .error e
  | .ok e =>
    match parseI64 ((buf.take e).drop 1) with
    | some n => .ok (e, n)
    | none => .error .ParseIntError

/-- Modelled from the spec: `parse_length_and_move` is `parse_length` plus
consuming the header through its CRLF (the decoders continue right after
the count line). -/
def parse_length_and_move (pfx : Nat) (buf : ByteSeq) : Except RespError (Int × ByteSeq) :=
  match parse_length pfx buf with
  | .error e => .error e
  | .ok (e, n) => .ok (n, buf.drop (e + 2))

mutual

/-- Model of `RespFrame::expect_length` (`src/resp/resp_frame.rs` lines 56-71):
dispatch on the first byte; anything unknown (or an empty buffer) is
`NotCompleted`. -/
def v1ExpectLength : Nat → ByteSeq → Except RespError Nat
  | 0, _ => .error .NotCompleted
  | fuel + 1, buf =>
    match buf with
    | 42 :: _ =>
      match parse_length 42 buf with
      | .error e => .error e
      | .ok (e, len) =>
        if len = -1 then .ok 5
        else calFrames fuel len.toNat (buf.drop (e + 2)) (e + 2)
    | 126 :: _ =>
      match parse_length 126 buf with
      | .error e => .error e
      | .ok (e, len) => calFrames fuel len.toNat (buf.drop (e + 2)) (e + 2)
    | 37 :: _ =>
      match parse_length 37 buf with
      | .error e => .error e
      | .ok (e, len) => calPairs fuel len.toNat (buf.drop (e + 2)) (e + 2)
    | 35 :: _ => .ok 4
    | 58 :: _ =>
      match extract_simple_frame_data 58 buf with
      | .error e => .error e
      | .ok e => .ok (e + 2)
    | 44 :: _ =>
      match extract_simple_frame_data 44 buf with
      | .error e => .error e
      | .ok e => .ok (e + 2)
    | 43 :: _ =>
      match extract_simple_frame_data 43 buf with
      | .error e => .error e
      | .ok e => .ok (e + 2)
    | 45 :: _ =>
      match extract_simple_frame_data 45 buf with
      | .error e => .error e
      | .ok e => .ok (e + 2)
    | 95 :: _ => .ok 3
    | 36 :: _ =>
      match parse_length 36 buf with
      | .error e => .error e
      | .ok (e, len) =>
        if len = -1 then .ok 5 else .ok (e + 2 + len.toNat + 2)
    | _ => .error .NotCompleted

/-- Modelled from the spec: the frame loop of `cal_total_length` for `*`
and `~` — §4.2's recursion on each element's length only, accumulating the
total byte count. -/
def calFrames : Nat → Nat → ByteSeq → Nat → Except RespError Nat
  | 0, _, _, _ => .error .NotCompleted
  | _ + 1, 0, _, acc => .ok acc
  | fuel + 1, n + 1, cur, acc =>
    match v1ExpectLength fuel cur with
    | .error e => .error e
    | .ok len => calFrames fuel n (cur.drop len) (acc + len)

/-- Modelled from the spec: the entry loop of `cal_total_length` for `%` —
per entry one `+`-SimpleString key length and one nested frame length
(§4.1: map keys must be `+`-SimpleStrings; §9: the count is the number of
entries). -/
def calPairs : Nat → Nat → ByteSeq → Nat → Except RespError Nat
  | 0, _, _, _ => .error .NotCompleted
  | _ + 1, 0, _, acc => .ok acc
  | fuel + 1, n + 1, cur, acc =>
    match extract_simple_frame_data 43 cur with
    | .error e => .error e
    | .ok e =>
      match v1ExpectLength fuel (cur.drop (e + 2)) with
      | .error er => .error er
      | .ok len => calPairs fuel n ((cur.drop (e + 2)).drop len) (acc + (e + 2) + len)

end

/-- Model of `SimpleString::decode` (`src/resp/simple_string.rs` lines 11-16):
content bytes between the `+` and the CRLF, buffer advanced past the CRLF
(`from_utf8_lossy` modelled as the identity on the bytes). -/
def v1SimpleStringDecode (buf : ByteSeq) : Except RespError (ByteSeq × ByteSeq) :=
  match extract_simple_frame_data 43 buf with
  | .error e => .error e
  | .ok e => .ok ((buf.take e).drop 1, buf.drop (e + 2))

/-- Model of `SimpleError::decode` (`src/resp/simple_error.rs` lines 15-20). -/
def v1SimpleErrorDecode (buf : ByteSeq) : Except RespError (ByteSeq × ByteSeq) :=
  match extract_simple_frame_data 45 buf with
  | .error e => .error e
  | .ok e => .ok ((buf.take e).drop 1, buf.drop (e + 2))

/-- Model of `i64::decode` (`src/resp/integer.rs` lines 23-28). -/
def v1IntegerDecode (buf : ByteSeq) : Except RespError (Int × ByteSeq) :=
  match extract_simple_frame_data 58 buf with
  | .error e => .error e
  | .ok e =>
    match parseI64 ((buf.take e).drop 1) with
    | some n => .ok (n, buf.drop (e + 2))
    | none => .error .ParseIntError

/-- Model of `bool::decode` (`src/resp/boolean.rs` lines 17-31). -/
def v1BoolDecode (buf : ByteSeq) : Except RespError (Bool × ByteSeq) :=
  match extract_simple_frame_data 35 buf with
  | .error e => .error e
  | .ok e =>
    let content := (buf.take e).drop 1
    if content = [116] then .ok (true, buf.drop (e + 2))
    else if content = [102] then .ok (false, buf.drop (e + 2))
    else .error .InvalidFrameType

/-- Model of `f64::decode` (`src/resp/double.rs` lines 44-49); the body is handed to
`str::parse::<f64>`, modelled by the same exact-rational grammar as the v2
float parser. -/
def v1DoubleDecode (buf : ByteSeq) : Except RespError (F64 × ByteSeq) :=
  match extract_simple_frame_data 44 buf with
  | .error e => .error e
  | .ok e =>
    match parseF64Body ((buf.take e).drop 1) with
    | some x => .ok (x, buf.drop (e + 2))
    | none => .error .ParseFloatError

/-- Model of `RespNull::decode` (`src/resp/null.rs` lines 15-18), via
`extract_fixed_data` against `_\r\n`. -/
def v1NullDecode (buf : ByteSeq) : Except RespError (Unit × ByteSeq) :=
  if buf.length < 3 then .error .NotCompleted
  else if buf.take 3 = [95, 13, 10] then .ok ((), buf.drop 3)
  else .error .InvalidFrameType

/-- Model of `BulkString::decode` (`src/resp/bulk_string.rs` lines 42-59): header
via `parse_length_and_move`; `-1` is the null bulk string; the data and its
trailing CRLF must be present (a negative length other than `-1`, cast to
`usize`, demands an astronomically long buffer, i.e. stays incomplete). -/
def v1BulkStringDecode (buf : ByteSeq) : Except RespError (Option ByteSeq × ByteSeq) :=
  match parse_length_and_move 36 buf with
  | .error e => .error e
  | .ok (len, rest) =>
    if len = -1 then .ok (none, rest)
    else if len < 0 then .error .NotCompleted
    else
      let n := len.toNat
      if rest.length < n + 2 then .error .NotCompleted
      else if (rest.drop n).take 2 = crlfBytes then .ok (some (rest.take n), rest.drop (n + 2))
      else .error .InvalidFrameType

mutual

/-- Model of `RespFrame::decode` (`src/resp/resp_frame.rs` lines 30-54): buffers
shorter than three bytes are incomplete; the first byte selects the
sub-decoder; unknown prefixes are `InvalidFrameType`. -/
def v1FrameDecode : Nat → ByteSeq → Except RespError (RespFrame × ByteSeq)
  | 0, _ => .error .NotCompleted
  | fuel + 1, buf =>
    if buf.length < 3 then .error .NotCompleted
    else
      match buf with
      | 43 :: _ =>
        match v1SimpleStringDecode buf with
        | .error e => .error e
        | .ok (s, r) => .ok (.simpleString s, r)
      | 45 :: _ =>
        match v1SimpleErrorDecode buf with
        | .error e => .error e
        | .ok (s, r) => .ok (.error s, r)
      | 58 :: _ =>
        match v1IntegerDecode buf with
        | .error e => .error e
        | .ok (i, r) => .ok (.integer i, r)
      | 44 :: _ =>
        match v1DoubleDecode buf with
        | .error e => .error e
        | .ok (x, r) => .ok (.double x, r)
      | 35 :: _ =>
        match v1BoolDecode buf with
        | .error e => .error e
        | .ok (b, r) => .ok (.boolean b, r)
      | 95 :: _ =>
        match v1NullDecode buf with
        | .error e => .error e
        | .ok (_, r) => .ok (.null, r)
      | 36 :: _ =>
        match v1BulkStringDecode buf with
        | .error e => .error e
        | .ok (b, r) => .ok (.bulkString b, r)
      | 42 :: _ => v1ArrayDecode fuel buf
      | 37 :: _ => v1MapDecode fuel buf
      | 126 :: _ => v1SetDecode fuel buf
      | _ => .error .InvalidFrameType

/-- Model of `RespArray::decode` (`src/resp/array.rs` lines 18-32): incomplete until
the buffer holds the whole frame per `expect_length`; then the header is
consumed and `length` nested frames are read (`-1` is the null array). -/
def v1ArrayDecode : Nat → ByteSeq → Except RespError (RespFrame × ByteSeq)
  | 0, _ => .error .NotCompleted
  | fuel + 1, buf =>
  match v1ExpectLength fuel buf with
  | .error e => .error e
  | .ok el =>
    if buf.length < el then .error .NotCompleted
    else
      match parse_length_and_move 42 buf with
      | .error e => .error e
      | .ok (len, rest) =>
        if len = -1 then .ok (.array none, rest)
        else
          match v1DecodeFrames fuel len.toNat rest with
          | .error e => .error e
          | .ok (elems, r) => .ok (.array (some elems), r)

/-- Model of `count` successive `RespFrame::decode` calls: the element loop shared
by `RespArray::decode`, returned in order without any filtering. -/
def v1DecodeFrames : Nat → Nat → ByteSeq → Except RespError (List RespFrame × ByteSeq)
  | 0, _, _ => .error .NotCompleted
  | _ + 1, 0, buf => .ok ([], buf)
  | fuel + 1, n + 1, buf =>
    match v1FrameDecode fuel buf with
    | .error e => .error e
    | .ok (f, rest) =>
      match v1DecodeFrames fuel n rest with
      | .error e => .error e
      | .ok (l, r) => .ok (f :: l, r)

/-- Model of `RespMap::decode` (`src/resp/map.rs` lines 52-64): completeness guard,
header, then `length` (key, value) pairs — one pair per declared entry —
with `+`-SimpleString keys, inserted into the `BTreeMap`. -/
def v1MapDecode : Nat → ByteSeq → Except RespError (RespFrame × ByteSeq)
  | 0, _ => .error .NotCompleted
  | fuel + 1, buf =>
  match v1ExpectLength fuel buf with
  | .error e => .error e
  | .ok el =>
    if buf.length < el then .error .NotCompleted
    else
      match parse_length_and_move 37 buf with
      | .error e => .error e
      | .ok (len, rest) =>
        match v1MapPairsDecode fuel len.toNat rest [] with
        | .error e => .error e
        | .ok (m, r) => .ok (.map m, r)

/-- The pair loop of `RespMap::decode`. -/
def v1MapPairsDecode : Nat → Nat → ByteSeq → List (ByteSeq × RespFrame) →
    Except RespError (List (ByteSeq × RespFrame) × ByteSeq)
  | 0, _, _, _ => .error .NotCompleted
  | _ + 1, 0, buf, acc => .ok (acc, buf)
  | fuel + 1, n + 1, buf, acc =>
    match v1SimpleStringDecode buf with
    | .error e => .error e
    | .ok (key, r1) =>
      match v1FrameDecode fuel r1 with
      | .error e => .error e
      | .ok (v, r2) => v1MapPairsDecode fuel n r2 (mapInsert key v acc)

/-- Model of `RespSet::decode` (`src/resp/set.rs` lines 38-52): completeness guard,
header, then `length` nested frames with duplicates dropped by the
`data.contains(&key)` check. -/
def v1SetDecode : Nat → ByteSeq → Except RespError (RespFrame × ByteSeq)
  | 0, _ => .error .NotCompleted
  | fuel + 1, buf =>
  match v1ExpectLength fuel buf with
  | .error e => .error e
  | .ok el =>
    if buf.length < el then .error .NotCompleted
    else
      match parse_length_and_move 126 buf with
      | .error e => .error e
      | .ok (len, rest) =>
        match v1SetLoop fuel len.toNat rest [] with
        | .error e => .error e
        | .ok (elems, r) => .ok (.set elems, r)

/-- The element loop of `RespSet::decode`: decode a frame, skip it when
`data` already contains an equal one, otherwise push it. -/
def v1SetLoop : Nat → Nat → ByteSeq → List RespFrame →
    Except RespError (List RespFrame × ByteSeq)
  | 0, _, _, _ => .error .NotCompleted
  | _ + 1, 0, buf, data => .ok (data, buf)
  | fuel + 1, n + 1, buf, data =>
    match v1FrameDecode fuel buf with
    | .error e => .error e
    | .ok (key, rest) =>
      if containsFrame data key then v1SetLoop fuel n rest data
      else v1SetLoop fuel n rest (data ++ [key])

end

/-- First-seen-order de-duplication relative to an accumulator, mirroring
the `contains`-then-`push` discipline of the set decode loop. -/
def dedupAcc (acc : List RespFrame) : List RespFrame → List RespFrame
  | [] => acc
  | f :: rest =>
    if containsFrame acc f then dedupAcc acc rest
    else dedupAcc (acc ++ [f]) rest

/-- First-seen-order de-duplication of a frame sequence. -/
def dedupFirst (l : List RespFrame) : List RespFrame := dedupAcc [] l

/-- The part `dedupAcc` appends after the accumulator. -/
def dedupNew (acc : List RespFrame) : List RespFrame → List RespFrame
  | [] => []
  | f :: rest =>
    if containsFrame acc f then dedupNew acc rest
    else f :: dedupNew (acc ++ [f]) rest

/-- Each element of the list is absent from the accumulator extended with
the elements before it: the invariant of a freshly de-duplicated run. -/
def freshList : List RespFrame → List RespFrame → Prop
  | _, [] => True
  | acc, f :: rest => containsFrame acc f = false ∧ freshList (acc ++ [f]) rest

/-! ## The legacy combined decoder (`src/resp/decode.rs`), which consumes
from the buffer as it parses.  All of its functions are embedded
state-passing: they return the result together with the buffer as the call
leaves it, because the claim about it concerns the buffer state on error. -/

/-- The frame enum of the legacy generation (`src/resp/mod.rs`): separate
`NullBulkString` / `NullArray` / `Null` variants, a non-optional
`BulkString`, and a non-optional `Array`. -/
inductive RespFrameOld where
  | simpleString (s : ByteSeq) : RespFrameOld
  | error (s : ByteSeq) : RespFrameOld
  | nullBulkString : RespFrameOld
  | nullArray : RespFrameOld
  | null : RespFrameOld
  | integer (i : Int) : RespFrameOld
  | bulkString (b : ByteSeq) : RespFrameOld
  | array (a : List RespFrameOld) : RespFrameOld
  | boolean (b : Bool) : RespFrameOld
  | double (d : F64) : RespFrameOld
  | map (m : List (ByteSeq × RespFrameOld)) : RespFrameOld
  | set (s : List RespFrameOld) : RespFrameOld

mutual

/-- Rust `PartialEq` on the legacy frame enum (doubles: NaN ≠ NaN). -/
def frameEqOld : RespFrameOld → RespFrameOld → Bool
  | .simpleString a, .simpleString b => a == b
  | .error a, .error b => a == b
  | .nullBulkString, .nullBulkString => true
  | .nullArray, .nullArray => true
  | .null, .null => true
  | .integer a, .integer b => a == b
  | .bulkString a, .bulkString b => a == b
  | .array a, .array b => frameListEqOld a b
  | .boolean a, .boolean b => a == b
  | .double a, .double b => f64PartialEq a b
  | .map a, .map b => framePairsEqOld a b
  | .set a, .set b => frameListEqOld a b
  | _, _ => false

/-- Elementwise `PartialEq` on legacy frame lists. -/
def frameListEqOld : List RespFrameOld → List RespFrameOld → Bool
  | [], [] => true
  | a :: as, b :: bs => frameEqOld a b && frameListEqOld as bs
  | _, _ => false

/-- Elementwise `PartialEq` on legacy map entries. -/
def framePairsEqOld : List (ByteSeq × RespFrameOld) → List (ByteSeq × RespFrameOld) → Bool
  | [], [] => true
  | (k, v) :: as, (k2, v2) :: bs => k == k2 && frameEqOld v v2 && framePairsEqOld as bs
  | _, _ => false

end

/-- Model of `Vec::contains` on legacy frames. -/
def containsFrameOld (data : List RespFrameOld) (f : RespFrameOld) : Bool :=
  data.any (fun g => frameEqOld g f)

/-- Model of `BTreeMap::insert` generalised to legacy values. -/
def mapInsertOld (k : ByteSeq) (v : RespFrameOld) :
    List (ByteSeq × RespFrameOld) → List (ByteSeq × RespFrameOld)
  | [] => [(k, v)]
  | (k2, v2) :: rest =>
    if byteSeqLt k k2 then (k, v) :: (k2, v2) :: rest
    else if k == k2 then (k, v) :: rest
    else (k2, v2) :: mapInsertOld k v rest

/-- Model of `usize::from_str`: an optional `+`, then digits (no negative values). -/
def parseUsize (s : ByteSeq) : Option Nat :=
  let core (ds : ByteSeq) : Option Nat :=
    if ds.isEmpty || !(ds.all isDigitByte) then none else some (digitsToNat ds)
  match s with
  | 43 :: rest => core rest
  | _ => core s

/-- Model of `extract_fixed_data` (`src/resp/decode.rs` lines 204-221): too short is
incomplete (buffer untouched); a mismatch is `InvalidFrameType` (buffer
untouched); a match is consumed. -/
def oldExtractFixedData (expect : ByteSeq) (buf : ByteSeq) :
    Except RespError Unit × ByteSeq :=
  if buf.length < expect.length then (.error .NotCompleted, buf)
  else if buf.take expect.length ≠ expect then (.error .InvalidFrameType, buf)
  else (.ok (), buf.drop expect.length)

/-- The legacy `parse_length` (`src/resp/decode.rs` lines 246-252): finds
the CRLF, `split_to` consumes the header, and only then parses the digits
as a `usize` — so a malformed count still leaves the header consumed. -/
def oldParseLength (pfx : Nat) (buf : ByteSeq) : Except RespError Nat × ByteSeq :=
  match extract_simple_frame_data pfx buf with
  | .error e => (.error e, buf)
  | .ok e =>
    let rest := buf.drop (e + 2)
    match parseUsize ((buf.take e).drop 1) with
    | some n => (.ok n, rest)
    | none => (.error .ParseIntError, rest)

/-- The legacy simple-payload decode shared by `SimpleString`,
`SimpleError` (`src/resp/decode.rs` lines 55-73): split past the CRLF and
return the content bytes. -/
def oldSimpleDecode (pfx : Nat) (buf : ByteSeq) : Except RespError ByteSeq × ByteSeq :=
  match extract_simple_frame_data pfx buf with
  | .error e => (.error e, buf)
  | .ok e => (.ok ((buf.take e).drop 1), buf.drop (e + 2))

/-- The legacy `i64::decode` (`src/resp/decode.rs` lines 93-101): the
content is consumed before the integer parse, so a parse failure leaves
the frame consumed. -/
def oldIntegerDecode (buf : ByteSeq) : Except RespError Int × ByteSeq :=
  match extract_simple_frame_data 58 buf with
  | .error e => (.error e, buf)
  | .ok e =>
    let rest := buf.drop (e + 2)
    match parseI64 ((buf.take e).drop 1) with
    | some n => (.ok n, rest)
    | none => (.error .ParseIntError, rest)

/-- The legacy `bool::decode` (`src/resp/decode.rs` lines 122-139). -/
def oldBoolDecode (buf : ByteSeq) : Except RespError Bool × ByteSeq :=
  match extract_simple_frame_data 35 buf with
  | .error e => (.error e, buf)
  | .ok e =>
    let rest := buf.drop (e + 2)
    let content := (buf.take e).drop 1
    if content = [116] then (.ok true, rest)
    else if content = [102] then (.ok false, rest)
    else (.error .InvalidFrameType, rest)

/-- The legacy `f64::decode` (`src/resp/decode.rs` lines 141-149). -/
def oldDoubleDecode (buf : ByteSeq) : Except RespError F64 × ByteSeq :=
  match extract_simple_frame_data 44 buf with
  | .error e => (.error e, buf)
  | .ok e =>
    let rest := buf.drop (e + 2)
    match parseF64Body ((buf.take e).drop 1) with
    | some x => (.ok x, rest)
    | none => (.error .ParseFloatError, rest)

/-- The legacy `BulkString::decode` (`src/resp/decode.rs` lines 103-120):
the incompleteness check happens only after `parse_length` has consumed
the header. -/
def oldBulkStringDecode (buf : ByteSeq) : Except RespError ByteSeq × ByteSeq :=
  match oldParseLength 36 buf with
  | (.error e, rest) => (.error e, rest)
  | (.ok len, rest) =>
    if rest.length < len + 2 then (.error .NotCompleted, rest)
    else
      let content := rest.take len
      let rest2 := rest.drop len
      if rest2.take 2 = crlfBytes then (.ok content, rest2.drop 2)
      else (.error .InvalidFrameType, rest2)

mutual

/-- The legacy `RespFrame::decode` (`src/resp/decode.rs` lines 18-52):
dispatch on the first byte; `$` and `*` first try the fixed null forms and
fall back to the sized decoders on a non-`NotCompleted` failure. -/
def oldFrameDecode : Nat → ByteSeq → Except RespError RespFrameOld × ByteSeq
  | 0, buf => (.error .NotCompleted, buf)
  | fuel + 1, buf =>
    if buf.length < 3 then (.error .NotCompleted, buf)
    else
      match buf with
      | 43 :: _ =>
        match oldSimpleDecode 43 buf with
        | (.error e, r) => (.error e, r)
        | (.ok s, r) => (.ok (.simpleString s), r)
      | 45 :: _ =>
        match oldSimpleDecode 45 buf with
        | (.error e, r) => (.error e, r)
        | (.ok s, r) => (.ok (.error s), r)
      | 58 :: _ =>
        match oldIntegerDecode buf with
        | (.error e, r) => (.error e, r)
        | (.ok i, r) => (.ok (.integer i), r)
      | 44 :: _ =>
        match oldDoubleDecode buf with
        | (.error e, r) => (.error e, r)
        | (.ok x, r) => (.ok (.double x), r)
      | 35 :: _ =>
        match oldBoolDecode buf with
        | (.error e, r) => (.error e, r)
        | (.ok b, r) => (.ok (.boolean b), r)
      | 95 :: _ =>
        match oldExtractFixedData [95, 13, 10] buf with
        | (.error e, r) => (.error e, r)
        | (.ok _, r) => (.ok .null, r)
      | 36 :: _ =>
        match oldExtractFixedData [36, 45, 49, 13, 10] buf with
        | (.ok _, r) => (.ok .nullBulkString, r)
        | (.error .NotCompleted, r) => (.error .NotCompleted, r)
        | (.error _, _) =>
          match oldBulkStringDecode buf with
          | (.error e, r) => (.error e, r)
          | (.ok s, r) => (.ok (.bulkString s), r)
      | 42 :: _ =>
        match oldExtractFixedData [42, 45, 49, 13, 10] buf with
        | (.ok _, r) => (.ok .nullArray, r)
        | (.error .NotCompleted, r) => (.error .NotCompleted, r)
        | (.error _, _) => oldArrayDecode fuel buf
      | 37 :: _ => oldMapDecode fuel buf
      | 126 :: _ => oldSetDecode fuel buf
      | _ => (.error .InvalidFrameType, buf)

/-- The legacy `RespArray::decode` (`src/resp/decode.rs` lines 160-172):
no completeness pre-check — the header and any leading elements are
consumed before a `NotCompleted` from a later element can surface (the
source's own `TODO` at line 167 records this). -/
def oldArrayDecode : Nat → ByteSeq → Except RespError RespFrameOld × ByteSeq
  | 0, buf => (.error .NotCompleted, buf)
  | fuel + 1, buf =>
  match oldParseLength 42 buf with
  | (.error e, r) => (.error e, r)
  | (.ok len, rest) =>
    match oldFrameLoop fuel len rest [] with
    | (.error e, r) => (.error e, r)
    | (.ok elems, r) => (.ok (.array elems), r)

/-- The element loop of the legacy array decode. -/
def oldFrameLoop : Nat → Nat → ByteSeq → List RespFrameOld →
    Except RespError (List RespFrameOld) × ByteSeq
  | 0, _, buf, _ => (.error .NotCompleted, buf)
  | _ + 1, 0, buf, acc => (.ok acc, buf)
  | fuel + 1, n + 1, buf, acc =>
    match oldFrameDecode fuel buf with
    | (.error e, r) => (.error e, r)
    | (.ok f, r) => oldFrameLoop fuel n r (acc ++ [f])

/-- The legacy `RespMap::decode` (`src/resp/decode.rs` lines 174-186):
`length` (key, value) pairs, keys via `SimpleString::decode`. -/
def oldMapDecode : Nat → ByteSeq → Except RespError RespFrameOld × ByteSeq
  | 0, buf => (.error .NotCompleted, buf)
  | fuel + 1, buf =>
  match oldParseLength 37 buf with
  | (.error e, r) => (.error e, r)
  | (.ok len, rest) =>
    match oldMapLoop fuel len rest [] with
    | (.error e, r) => (.error e, r)
    | (.ok m, r) => (.ok (.map m), r)

/-- The pair loop of the legacy map decode. -/
def oldMapLoop : Nat → Nat → ByteSeq → List (ByteSeq × RespFrameOld) →
    Except RespError (List (ByteSeq × RespFrameOld)) × ByteSeq
  | 0, _, buf, _ => (.error .NotCompleted, buf)
  | _ + 1, 0, buf, acc => (.ok acc, buf)
  | fuel + 1, n + 1, buf, acc =>
    match oldSimpleDecode 43 buf with
    | (.error e, r) => (.error e, r)
    | (.ok key, r1) =>
      match oldFrameDecode fuel r1 with
      | (.error e, r) => (.error e, r)
      | (.ok v, r2) => oldMapLoop fuel n r2 (mapInsertOld key v acc)

/-- The legacy `RespSet::decode` (`src/resp/decode.rs` lines 188-202). -/
def oldSetDecode : Nat → ByteSeq → Except RespError RespFrameOld × ByteSeq
  | 0, buf => (.error .NotCompleted, buf)
  | fuel + 1, buf =>
  match oldParseLength 126 buf with
  | (.error e, r) => (.error e, r)
  | (.ok len, rest) =>
    match oldSetLoop fuel len rest [] with
    | (.error e, r) => (.error e, r)
    | (.ok s, r) => (.ok (.set s), r)

/-- The element loop of the legacy set decode (same dedup discipline). -/
def oldSetLoop : Nat → Nat → ByteSeq → List RespFrameOld →
    Except RespError (List RespFrameOld) × ByteSeq
  | 0, _, buf, _ => (.error .NotCompleted, buf)
  | _ + 1, 0, buf, acc => (.ok acc, buf)
  | fuel + 1, n + 1, buf, acc =>
    match oldFrameDecode fuel buf with
    | (.error e, r) => (.error e, r)
    | (.ok key, r1) =>
      if containsFrameOld acc key then oldSetLoop fuel n r1 acc
      else oldSetLoop fuel n r1 (acc ++ [key])

end

/-! ## The command layer (`src/cmd`) and the backend set operations
(`src/backend/mod.rs`) -/

/-- The command error enum.  Modelled from the spec: `src/cmd/err.rs` is
absent from the tree; constructors follow §7 and the call sites
(`InvalidCommand`, `InvalidArgument`, `Utf8Error`); messages are dropped. -/
inductive CommandError where
  | InvalidCommand : CommandError
  | InvalidArgument : CommandError
  | Utf8Error : CommandError
deriving DecidableEq

/-- Model of `String::from_utf8` on the byte model: succeeds exactly on valid UTF-8,
keeping the bytes as the string's representation. -/
def stringFromUtf8 (b : ByteSeq) : Option ByteSeq :=
  if validUtf8 b then some b else none

/-- Verb byte constants (lowercase ASCII). -/
def bGet : ByteSeq := [103, 101, 116]

def bSet : ByteSeq := [115, 101, 116]

def bHGet : ByteSeq := [104, 103, 101, 116]

def bHSet : ByteSeq := [104, 115, 101, 116]

def bHGetAll : ByteSeq := [104, 103, 101, 116, 97, 108, 108]

def bHMGet : ByteSeq := [104, 109, 103, 101, 116]

def bEcho : ByteSeq := [101, 99, 104, 111]

def bSAdd : ByteSeq := [115, 97, 100, 100]

/-- Model of `validate_command` (`src/cmd/mod.rs` lines 110-140): arity must be
exactly `n_arg + 1` elements including the verb; the first element must be
a BulkString whose ASCII-lowercased bytes equal the expected name. -/
def validate_command (value : List RespFrame) (cmd : ByteSeq) (nArg : Nat) :
    Except CommandError Unit :=
  if value.length ≠ nArg + 1 then .error .InvalidArgument
  else
    match value with
    | .bulkString c :: _ =>
      if asciiLower (bulkToVec c) ≠ cmd then .error .InvalidArgument else .ok ()
    | _ :: _ => .error .InvalidCommand
    | [] => .error .InvalidCommand

/-- Model of `extract_args` (`src/cmd/mod.rs` lines 142-144): skip `start` leading
elements. -/
def extract_args (value : List RespFrame) (start : Nat) : List RespFrame :=
  value.drop start

/-- The `Get` command (`src/cmd/mod.rs` lines 32-35). -/
structure GetCmd where
  key : ByteSeq

/-- The `Set` command (`src/cmd/mod.rs` lines 37-41). -/
structure SetCmd where
  key : ByteSeq
  value : RespFrame

/-- The `HGet` command (`src/cmd/mod.rs` lines 43-47). -/
structure HGetCmd where
  key : ByteSeq
  field : ByteSeq

/-- The `HSet` command (`src/cmd/mod.rs` lines 49-54). -/
structure HSetCmd where
  key : ByteSeq
  field : ByteSeq
  value : RespFrame

/-- The `HGetAll` command (`src/cmd/mod.rs` lines 56-59). -/
structure HGetAllCmd where
  key : ByteSeq

/-- The `HMGet` command (`src/cmd/mod.rs` lines 61-65). -/
structure HMGetCmd where
  key : ByteSeq
  fields : List ByteSeq

/-- The `Echo` command (`src/cmd/mod.rs` lines 67-70). -/
structure EchoCmd where
  message : ByteSeq

/-- Model of `TryFrom<RespArray> for Get` (`src/cmd/map.rs` lines 22-38): any
BulkString (including the null one, whose payload derefs to the empty
vector) is accepted as the key, subject to UTF-8 validity. -/
def Get_tryFrom (value : List RespFrame) : Except CommandError GetCmd :=
  match validate_command value bGet 1 with
  | .error e => .error e
  | .ok _ =>
    match extract_args value 1 with
    | .bulkString key :: _ =>
      match stringFromUtf8 (bulkToVec key) with
      | some k => .ok ⟨k⟩
      | none => .error .InvalidArgument
    | _ => .error .InvalidArgument

/-- Model of `TryFrom<RespArray> for Set` (`src/cmd/map.rs` lines 40-58): both the
key and the value slot must be BulkStrings; any other value frame is
`InvalidArgument`. -/
def Set_tryFrom (value : List RespFrame) : Except CommandError SetCmd :=
  match validate_command value bSet 2 with
  | .error e => .error e
  | .ok _ =>
    match extract_args value 1 with
    | .bulkString key :: .bulkString v :: _ =>
      match stringFromUtf8 (bulkToVec key) with
      | some k => .ok ⟨k, .bulkString v⟩
      | none => .error .Utf8Error
    | _ => .error .InvalidArgument

/-- Model of `TryFrom<RespArray> for HGet` (`src/cmd/hmap.rs` lines 49-70). -/
def HGet_tryFrom (value : List RespFrame) : Except CommandError HGetCmd :=
  match validate_command value bHGet 2 with
  | .error e => .error e
  | .ok _ =>
    match extract_args value 1 with
    | .bulkString (some key) :: .bulkString (some field) :: _ =>
      match stringFromUtf8 key, stringFromUtf8 field with
      | some k, some f => .ok ⟨k, f⟩
      | _, _ => .error .Utf8Error
    | _ => .error .InvalidArgument

/-- Model of `TryFrom<RespArray> for HSet` (`src/cmd/hmap.rs` lines 72-93): the key
and field must be non-null BulkStrings; the value slot accepts any frame. -/
def HSet_tryFrom (value : List RespFrame) : Except CommandError HSetCmd :=
  match validate_command value bHSet 3 with
  | .error e => .error e
  | .ok _ =>
    match extract_args value 1 with
    | .bulkString (some key) :: .bulkString (some field) :: v :: _ =>
      match stringFromUtf8 key, stringFromUtf8 field with
      | some k, some f => .ok ⟨k, f, v⟩
      | _, _ => .error .Utf8Error
    | _ => .error .InvalidArgument

/-- Model of `TryFrom<RespArray> for HGetAll` (`src/cmd/hmap.rs` lines 95-108). -/
def HGetAll_tryFrom (value : List RespFrame) : Except CommandError HGetAllCmd :=
  match validate_command value bHGetAll 1 with
  | .error e => .error e
  | .ok _ =>
    match extract_args value 1 with
    | .bulkString (some key) :: _ =>
      match stringFromUtf8 key with
      | some k => .ok ⟨k⟩
      | none => .error .Utf8Error
    | _ => .error .InvalidArgument

/-- The field loop of `HMGet`'s conversion. -/
def hmgetFields : List RespFrame → Except CommandError (List ByteSeq)
  | [] => .ok []
  | .bulkString (some field) :: rest =>
    match stringFromUtf8 field with
    | some f =>
      match hmgetFields rest with
      | .ok fs => .ok (f :: fs)
      | .error e => .error e
    | none => .error .Utf8Error
  | _ :: _ => .error .InvalidArgument

/-- Model of `TryFrom<RespArray> for HMGet` (`src/cmd/hmap.rs` lines 110-152):
variable arity of at least three elements. -/
def HMGet_tryFrom (value : List RespFrame) : Except CommandError HMGetCmd :=
  if value.length < 3 then .error .InvalidArgument
  else
    match validate_command value bHMGet (value.length - 1) with
    | .error e => .error e
    | .ok _ =>
      match extract_args value 1 with
      | .bulkString (some key) :: rest =>
        match stringFromUtf8 key with
        | some k =>
          match hmgetFields rest with
          | .ok fs => .ok ⟨k, fs⟩
          | .error e => .error e
        | none => .error .Utf8Error
      | _ => .error .InvalidArgument

/-- Model of `TryFrom<RespArray> for Echo` (`src/cmd/echo.rs` lines 11-25). -/
def Echo_tryFrom (value : List RespFrame) : Except CommandError EchoCmd :=
  match validate_command value bEcho 1 with
  | .error e => .error e
  | .ok _ =>
    match extract_args value 1 with
    | .bulkString (some message) :: _ =>
      match stringFromUtf8 message with
      | some m => .ok ⟨m⟩
      | none => .error .Utf8Error
    | _ => .error .InvalidArgument

/-- The command sum type of `src/cmd/mod.rs` lines 21-30 (this generation
has no `SAdd` / `SIsMember` arm). -/
inductive Command where
  | get (c : GetCmd) : Command
  | set (c : SetCmd) : Command
  | hget (c : HGetCmd) : Command
  | hset (c : HSetCmd) : Command
  | hgetall (c : HGetAllCmd) : Command
  | hmget (c : HMGetCmd) : Command
  | echo (c : EchoCmd) : Command

/-- Model of `TryFrom<RespArray> for Command` (`src/cmd/mod.rs` lines 85-108): the
first element must be a BulkString, and its RAW bytes — not lowercased —
are matched against the lowercase command names. -/
def Command_tryFromArray (value : List RespFrame) : Except CommandError Command :=
  match value with
  | .bulkString c :: _ =>
    let cb := bulkToVec c
    if cb = bGet then
      match Get_tryFrom value with
      | .ok g => .ok (.get g)
      | .error e => .error e
    else if cb = bSet then
      match Set_tryFrom value with
      | .ok g => .ok (.set g)
      | .error e => .error e
    else if cb = bHGet then
      match HGet_tryFrom value with
      | .ok g => .ok (.hget g)
      | .error e => .error e
    else if cb = bHSet then
      match HSet_tryFrom value with
      | .ok g => .ok (.hset g)
      | .error e => .error e
    else if cb = bHGetAll then
      match HGetAll_tryFrom value with
      | .ok g => .ok (.hgetall g)
      | .error e => .error e
    else if cb = bHMGet then
      match HMGet_tryFrom value with
      | .ok g => .ok (.hmget g)
      | .error e => .error e
    else if cb = bEcho then
      match Echo_tryFrom value with
      | .ok g => .ok (.echo g)
      | .error e => .error e
    else .error .InvalidCommand
  | _ :: _ => .error .InvalidCommand
  | [] => .error .InvalidCommand

/-- Model of `TryFrom<RespFrame> for Command` (`src/cmd/mod.rs` lines 72-83): only
Array frames are commands (the null array derefs to the empty vector and
fails on its missing first element). -/
def Command_tryFromFrame (f : RespFrame) : Except CommandError Command :=
  match f with
  | .array a => Command_tryFromArray (a.getD [])
  | _ => .error .InvalidCommand

/-- The `SAdd` command of `src/cmd/set.rs`: its member collection is a
`HashSet<BulkString>`, modelled as an insertion-ordered duplicate-free
list (the counting facts proved below do not depend on iteration order). -/
structure SAddCmd where
  key : ByteSeq
  member : List (Option ByteSeq)

/-- Model of `HashSet::insert`: keep the set duplicate-free. -/
def hsInsert (s : List (Option ByteSeq)) (x : Option ByteSeq) : List (Option ByteSeq) :=
  if s.contains x then s else s ++ [x]

/-- The member loop of `SAdd`'s conversion (`src/cmd/set.rs` lines 34-46):
every member argument must be a BulkString (null allowed) and is inserted
into the hash set. -/
def collectMembers : List RespFrame → List (Option ByteSeq) →
    Except CommandError (List (Option ByteSeq))
  | [], acc => .ok acc
  | .bulkString b :: rest, acc => collectMembers rest (hsInsert acc b)
  | _ :: _, _ => .error .InvalidArgument

/-- Model of `TryFrom<RespArray> for SAdd` (`src/cmd/set.rs` lines 19-49): variable
arity (`n_arg = len - 1` always passes the arity check), a non-null UTF-8
key, then the members gathered into the hash set. -/
def SAdd_tryFrom (value : List RespFrame) : Except CommandError SAddCmd :=
  match validate_command value bSAdd (value.length - 1) with
  | .error e => .error e
  | .ok _ =>
    match extract_args value 1 with
    | .bulkString (some key) :: rest =>
      match stringFromUtf8 key with
      | some k =>
        match collectMembers rest [] with
        | .ok m => .ok ⟨k, m⟩
        | .error e => .error e
      | none => .error .Utf8Error
    | _ => .error .InvalidArgument

/-- The `skv` container of the backend (`src/backend/mod.rs` line 14):
`DashMap<String, DashSet<BulkString>>`, modelled as an association list of
insertion-ordered duplicate-free member lists. -/
abbrev SetStore := List (ByteSeq × List (Option ByteSeq))

/-- Model of `self.set.entry(key).or_default()` read side: the stored set for a key,
empty when absent. -/
def skvLookup (skv : SetStore) (key : ByteSeq) : List (Option ByteSeq) :=
  match skv.find? (fun p => p.1 == key) with
  | some p => p.2
  | none => []

/-- Store back the (possibly new) set for a key. -/
def skvUpdate (key : ByteSeq) (v : List (Option ByteSeq)) : SetStore → SetStore
  | [] => [(key, v)]
  | (k, s) :: rest =>
    if k == key then (key, v) :: rest else (k, s) :: skvUpdate key v rest

/-- The member loop of `Backend::sadd` (`src/backend/mod.rs` lines 83-87):
`DashSet::insert` succeeds — and is counted — exactly when the member was
absent. -/
def saddLoop : List (Option ByteSeq) → List (Option ByteSeq) →
    Int × List (Option ByteSeq)
  | stored, [] => (0, stored)
  | stored, k :: rest =>
    if stored.contains k then saddLoop stored rest
    else
      let p := saddLoop (stored ++ [k]) rest
      (p.1 + 1, p.2)

/-- Model of `Backend::sadd` (`src/backend/mod.rs` lines 80-89): fetch or create the
key's set, insert every member, and return the count of new insertions. -/
def Backend_sadd (skv : SetStore) (key : ByteSeq) (member : List (Option ByteSeq)) :
    Int × SetStore :=
  let p := saddLoop (skvLookup skv key) member
  (p.1, skvUpdate key p.2 skv)

/-- Model of `CommandExecutor for SAdd` (`src/cmd/set.rs` lines 7-11): the reply is
the insertion count as an Integer frame. -/
def executeSAdd (skv : SetStore) (cmd : SAddCmd) : RespFrame × SetStore :=
  let p := Backend_sadd skv cmd.key cmd.member
  (.integer p.1, p.2)

/-! ## Helper lemmas -/

theorem listContains_iff (l : List (Option ByteSeq)) (x : Option ByteSeq) :
    l.contains x = true ↔ x ∈ l := by
  induction l with
  | nil => simp
  | cons a as ih =>
    simp only [List.contains_cons, Bool.or_eq_true, beq_iff_eq, ih, List.mem_cons]

theorem listContains_append_ne (l : List (Option ByteSeq)) (a m : Option ByteSeq)
    (h : m ≠ a) : (l ++ [a]).contains m = l.contains m := by
  cases hc : l.contains m with
  | true =>
    have := (listContains_iff l m).mp hc
    exact (listContains_iff _ m).mpr (List.mem_append_left _ this)
  | false =>
    cases hc2 : (l ++ [a]).contains m with
    | false => rfl
    | true =>
      have := (listContains_iff _ m).mp hc2
      rcases List.mem_append.mp this with h1 | h1
      · have h2 := (listContains_iff l m).mpr h1
        rw [hc] at h2
        exact h2.symm
      · simp at h1; exact absurd h1 h

theorem saddLoop_count (member : List (Option ByteSeq)) :
    ∀ stored, member.Nodup →
      (saddLoop stored member).1 =
        ((member.filter (fun m => !stored.contains m)).length : Int) := by
  induction member with
  | nil => intro stored _; simp [saddLoop]
  | cons k rest ih =>
    intro stored hnd
    rcases List.nodup_cons.mp hnd with ⟨hk, hrest⟩
    show (if stored.contains k = true then saddLoop stored rest
        else ((saddLoop (stored ++ [k]) rest).1 + 1, (saddLoop (stored ++ [k]) rest).2)).1 = _
    cases hc : stored.contains k with
    | true =>
      rw [if_pos rfl, ih stored hrest, List.filter_cons]
      have hpk : (!stored.contains k) = false := by rw [hc]; rfl
      rw [hpk]
      simp
    | false =>
      rw [if_neg Bool.false_ne_true]
      have hfc : rest.filter (fun m => !(stored ++ [k]).contains m) =
          rest.filter (fun m => !stored.contains m) := by
        apply List.filter_congr
        intro m hm
        have hne : m ≠ k := fun h => hk (h ▸ hm)
        rw [listContains_append_ne stored k m hne]
      have hpk : (!stored.contains k) = true := by rw [hc]; rfl
      show (saddLoop (stored ++ [k]) rest).1 + 1 = _
      rw [ih (stored ++ [k]) hrest, hfc, List.filter_cons, hpk]
      simp only [if_true, List.length_cons]
      push_cast
      ring

theorem saddLoop_subset (member : List (Option ByteSeq)) :
    ∀ stored x, x ∈ stored → x ∈ (saddLoop stored member).2 := by
  induction member with
  | nil => intro stored x hx; simpa [saddLoop] using hx
  | cons k rest ih =>
    intro stored x hx
    show x ∈ (if stored.contains k = true then saddLoop stored rest
        else ((saddLoop (stored ++ [k]) rest).1 + 1, (saddLoop (stored ++ [k]) rest).2)).2
    cases hc : stored.contains k with
    | true => rw [if_pos rfl]; exact ih stored x hx
    | false =>
      rw [if_neg Bool.false_ne_true]
      exact ih (stored ++ [k]) x (List.mem_append_left _ hx)

theorem saddLoop_mem (member : List (Option ByteSeq)) :
    ∀ stored x, x ∈ member → x ∈ (saddLoop stored member).2 := by
  induction member with
  | nil => intro stored x hx; simp at hx
  | cons k rest ih =>
    intro stored x hx
    show x ∈ (if stored.contains k = true then saddLoop stored rest
        else ((saddLoop (stored ++ [k]) rest).1 + 1, (saddLoop (stored ++ [k]) rest).2)).2
    rcases List.mem_cons.mp hx with h | h
    · subst h
      cases hc : stored.contains x with
      | true =>
        rw [if_pos rfl]
        exact saddLoop_subset rest stored x ((listContains_iff stored x).mp hc)
      | false =>
        rw [if_neg Bool.false_ne_true]
        exact saddLoop_subset rest (stored ++ [x]) x (List.mem_append_right _ (by simp))
    · cases hc : stored.contains k with
      | true => rw [if_pos rfl]; exact ih stored x h
      | false =>
        rw [if_neg Bool.false_ne_true]
        exact ih (stored ++ [k]) x h

theorem skvLookup_update (skv : SetStore) (key : ByteSeq) (v : List (Option ByteSeq)) :
    skvLookup (skvUpdate key v skv) key = v := by
  induction skv with
  | nil => simp [skvLookup, skvUpdate, List.find?]
  | cons p rest ih =>
    obtain ⟨k, s⟩ := p
    cases hk : (k == key) with
    | true => simp [skvUpdate, hk, skvLookup, List.find?]
    | false => simpa [skvUpdate, hk, skvLookup, List.find?] using ih

theorem dedupAcc_eq_append (l : List RespFrame) :
    ∀ acc, dedupAcc acc l = acc ++ dedupNew acc l := by
  induction l with
  | nil => intro acc; simp [dedupAcc, dedupNew]
  | cons f rest ih =>
    intro acc
    cases hc : containsFrame acc f with
    | true => simp [dedupAcc, dedupNew, hc, ih acc]
    | false => simp [dedupAcc, dedupNew, hc, ih (acc ++ [f])]

theorem freshList_dedupNew (l : List RespFrame) :
    ∀ acc, freshList acc (dedupNew acc l) := by
  induction l with
  | nil => intro acc; simp [dedupNew, freshList]
  | cons f rest ih =>
    intro acc
    cases hc : containsFrame acc f with
    | true => simpa [dedupNew, hc] using ih acc
    | false =>
      simp only [dedupNew, hc, Bool.false_eq_true, if_false]
      exact ⟨hc, ih (acc ++ [f])⟩

theorem dedupAcc_of_fresh (m : List RespFrame) :
    ∀ acc, freshList acc m → dedupAcc acc m = acc ++ m := by
  induction m with
  | nil => intro acc _; simp [dedupAcc]
  | cons f rest ih =>
    intro acc h
    obtain ⟨h1, h2⟩ := h
    simp only [dedupAcc, h1, Bool.false_eq_true, if_false]
    rw [ih (acc ++ [f]) h2, List.append_assoc]
    rfl

theorem dedupFirst_idem (l : List RespFrame) : dedupFirst (dedupFirst l) = dedupFirst l := by
  have h1 : dedupFirst l = dedupNew [] l := by
    rw [dedupFirst, dedupAcc_eq_append]; rfl
  rw [dedupFirst, h1, dedupAcc_of_fresh _ [] (freshList_dedupNew l [])]
  rfl

theorem v1SetLoop_dedup (n : Nat) :
    ∀ fuel buf acc l rest,
      v1DecodeFrames fuel n buf = .ok (l, rest) →
      v1SetLoop fuel n buf acc = .ok (dedupAcc acc l, rest) := by
  induction n with
  | zero =>
    intro fuel buf acc l rest h
    cases fuel with
    | zero => simp [v1DecodeFrames] at h
    | succ f =>
      simp only [v1DecodeFrames, Except.ok.injEq, Prod.mk.injEq] at h
      obtain ⟨hl, hr⟩ := h
      subst hl; subst hr
      simp [v1SetLoop, dedupAcc]
  | succ n ih =>
    intro fuel buf acc l rest h
    cases fuel with
    | zero => simp [v1DecodeFrames] at h
    | succ f =>
      cases hE : v1FrameDecode f buf with
      | error e => simp [v1DecodeFrames, hE] at h
      | ok p =>
        obtain ⟨fr, r⟩ := p
        cases hD : v1DecodeFrames f n r with
        | error e => simp [v1DecodeFrames, hE, hD] at h
        | ok q =>
          obtain ⟨l2, r2⟩ := q
          simp only [v1DecodeFrames, hE, hD, Except.ok.injEq, Prod.mk.injEq] at h
          obtain ⟨hl, hr⟩ := h
          subst hr
          cases hc : containsFrame acc fr with
          | true =>
            simp only [v1SetLoop, hE, hc, if_true]
            rw [ih f r acc l2 r2 hD, ← hl]
            simp [dedupAcc, hc]
          | false =>
            simp only [v1SetLoop, hE, hc, Bool.false_eq_true, if_false]
            rw [ih f r (acc ++ [fr]) l2 r2 hD, ← hl]
            simp [dedupAcc, hc]

/-! ## Claim theorems -/

/-- C1: the spec claims `decode(encode(f)) == f` for every frame, in
particular for maps with two or more entries and for sets.  On the code the
`RespDecodeV2` decoder refutes this: encoding the two-entry map
`{a: 1, b: 2}` yields `%2\r\n+a\r\n:1\r\n+b\r\n:2\r\n`, which the v2
decoder (reading `len / 2` pairs) turns into the one-entry map `{a: 1}`,
not equal to the original; and the encoding `~2\r\n:1\r\n:2\r\n` of a set
cannot be decoded at all (`parse_frame` has no `~` branch, so the scan
stays `NotCompleted`). -/
theorem c1_respv2_roundtrip_fails_on_map_and_set :
    (v2Decode (frameEncode (.map [([97], .integer 1), ([98], .integer 2)]))).1
        = .ok (.map [([97], .integer 1)])
  ∧ frameEq (.map [([97], .integer 1)]) (.map [([97], .integer 1), ([98], .integer 2)]) = false
  ∧ (v2Decode (frameEncode (.set [.integer 1, .integer 2]))).1 = .error .NotCompleted :=
  ⟨rfl, rfl, rfl⟩

/-- C2: for a first byte that is no variant prefix (`&` = byte 38, as in
`&bad\r\n`), the claim is right that no extension parses — `parse_frame`
fails on every such slice — but both `expect_length` implementations
return `NotCompleted`, not `InvalidFrame`, and the connection codec
therefore reports "need more bytes" (`none`) instead of surfacing an error
frame and closing: the connection waits instead of erroring. -/
theorem c2_unknown_first_byte_not_completed : ∀ rest : ByteSeq,
    parse_frame_length (38 :: rest) = .error .NotCompleted
  ∧ (∀ fuel, v1ExpectLength fuel (38 :: rest) = .error .NotCompleted)
  ∧ (∀ fuel, v2ParseFrame fuel (38 :: rest) = none)
  ∧ (respFrameCodecDecode (38 :: rest)).1 = none := by
  intro rest
  refine ⟨rfl, ?_, ?_, rfl⟩
  · intro fuel
    cases fuel with
    | zero => rfl
    | succ f => rfl
  · intro fuel
    cases fuel with
    | zero => rfl
    | succ f => rfl

/-- C3: on the wire form `%2\r\n+foo\r\n+bar\r\n+baz\r\n+qux\r\n` the
per-type decoder reads the declared count as the number of entries and
yields the two-entry map `{baz: qux, foo: bar}` (as the repository's own
`test_map_decode` asserts), while the v2 parser reads `2 / 2 = 1` pair and
yields the one-entry map `{foo: bar}` — the two decoders disagree, and the
v2 one contradicts the claim. -/
theorem c3_map_count_entries_vs_half :
    v1MapDecode 100
        [37, 50, 13, 10, 43, 102, 111, 111, 13, 10, 43, 98, 97, 114, 13, 10,
          43, 98, 97, 122, 13, 10, 43, 113, 117, 120, 13, 10]
      = .ok (.map [([98, 97, 122], .simpleString [113, 117, 120]),
          ([102, 111, 111], .simpleString [98, 97, 114])], [])
  ∧ (v2Decode
        [37, 50, 13, 10, 43, 102, 111, 111, 13, 10, 43, 98, 97, 114, 13, 10,
          43, 98, 97, 122, 13, 10, 43, 113, 117, 120, 13, 10]).1
      = .ok (.map [([102, 111, 111], .simpleString [98, 97, 114])]) :=
  ⟨rfl, rfl⟩

/-- C4: the legacy `RespArray::decode` of `src/resp/decode.rs` violates
the buffer-unchanged-on-`NotCompleted` contract: on `*2\r\n+foo\r\n` it
consumes the header and the first element before discovering the second is
missing, returning `NotCompleted` with the buffer emptied (the source's own
`TODO` comment and a commented-out test acknowledge the defect; the newer
`src/resp/array.rs` decoder checks `expect_length` first). -/
theorem c4_legacy_array_decode_consumes_on_not_completed :
    oldFrameDecode 100 [42, 50, 13, 10, 43, 102, 111, 111, 13, 10]
        = (.error .NotCompleted, ([] : ByteSeq))
  ∧ ([] : ByteSeq) ≠ [42, 50, 13, 10, 43, 102, 111, 111, 13, 10] :=
  ⟨rfl, by decide⟩

/-- C5 counterexample: the claim says any ASCII case variant of a verb
converts to the same command, but `TryFrom<RespArray> for Command` matches
the verb's raw bytes, so `["GET", "key"]` is rejected with
`InvalidCommand` instead of dispatching like `["get", "key"]`. -/
theorem c5_uppercase_get_rejected :
    Command_tryFromArray
        [.bulkString (some [71, 69, 84]), .bulkString (some [107, 101, 121])]
      = .error .InvalidCommand :=
  rfl

/-- C5 (amended): verb dispatch is case-sensitive.  Universally over the
embedded dispatcher: a conversion can succeed only when the verb's raw
bytes are one of the seven exact-lowercase command names; any verb
containing an ASCII uppercase letter (so any variant such as `GET` or
`Get`, for every verb) is rejected at dispatch with `InvalidCommand`; and
`validate_command` on its own compares the verb ASCII-case-insensitively.
The last conjunct shows the lowercase spelling does convert. -/
theorem c5_dispatch_case_sensitive :
    (∀ (b : Option ByteSeq) (rest : List RespFrame) (cmd : Command),
      Command_tryFromArray (.bulkString b :: rest) = .ok cmd →
      bulkToVec b ∈ [bGet, bSet, bHGet, bHSet, bHGetAll, bHMGet, bEcho])
  ∧ (∀ (b : Option ByteSeq) (rest : List RespFrame),
      (∃ c ∈ bulkToVec b, 65 ≤ c ∧ c ≤ 90) →
      Command_tryFromArray (.bulkString b :: rest) = .error .InvalidCommand)
  ∧ (∀ (b : Option ByteSeq) (rest : List RespFrame) (cmd : ByteSeq) (nArg : Nat),
      asciiLower (bulkToVec b) = cmd →
      (RespFrame.bulkString b :: rest).length = nArg + 1 →
      validate_command (.bulkString b :: rest) cmd nArg = .ok ())
  ∧ Command_tryFromArray
        [.bulkString (some [103, 101, 116]), .bulkString (some [107, 101, 121])]
      = .ok (.get ⟨[107, 101, 121]⟩) := by
  refine ⟨?_, ?_, ?_, rfl⟩
  · intro b rest cmd h
    simp only [Command_tryFromArray] at h
    split_ifs at h with h1 h2 h3 h4 h5 h6 h7
    · simp [h1]
    · simp [h2]
    · simp [h3]
    · simp [h4]
    · simp [h5]
    · simp [h6]
    · simp [h7]
  · rintro b rest ⟨c, hcmem, h65, h90⟩
    have hno : ∀ konst : ByteSeq, (∀ x ∈ konst, 90 < x ∨ x < 65) →
        bulkToVec b ≠ konst := by
      intro konst hk hEq
      rw [hEq] at hcmem
      rcases hk c hcmem with h | h <;> omega
    simp only [Command_tryFromArray]
    rw [if_neg (hno bGet (by decide)), if_neg (hno bSet (by decide)),
      if_neg (hno bHGet (by decide)), if_neg (hno bHSet (by decide)),
      if_neg (hno bHGetAll (by decide)), if_neg (hno bHMGet (by decide)),
      if_neg (hno bEcho (by decide))]
  · intro b rest cmd nArg hlow hlen
    simp only [validate_command]
    rw [if_neg (fun hne => hne hlen), if_neg (fun hne => hne hlow)]

/-- C5 witness: the universal clauses applied at concrete inputs —
`["Get", "key"]` is rejected with `InvalidCommand` (its verb contains the
uppercase byte 71), and `validate_command` accepts the all-uppercase `GET`
against the lowercase name. -/
theorem c5_dispatch_case_sensitive_witness :
    Command_tryFromArray
        [.bulkString (some [71, 101, 116]), .bulkString (some [107, 101, 121])]
      = .error .InvalidCommand
  ∧ validate_command
        [.bulkString (some [71, 69, 84]), .bulkString (some [107, 101, 121])] bGet 1
      = .ok () :=
  ⟨c5_dispatch_case_sensitive.2.1 (some [71, 101, 116])
      [.bulkString (some [107, 101, 121])] (by decide),
    c5_dispatch_case_sensitive.2.2.1 (some [71, 69, 84])
      [.bulkString (some [107, 101, 121])] bGet 1 (by decide) (by decide)⟩

/-- C6: the reply of an SADD execution is `Integer(k)` with `k` exactly the
number of listed (distinct) members not already present in the set stored
at the key, and repeating the identical SADD immediately afterwards
replies `Integer(0)`. -/
theorem c6_sadd_counts_new_members (skv : SetStore) (key : ByteSeq)
    (member : List (Option ByteSeq)) (hnd : member.Nodup) :
    (executeSAdd skv ⟨key, member⟩).1
        = .integer ((member.filter (fun m => !(skvLookup skv key).contains m)).length : Int)
  ∧ (executeSAdd (executeSAdd skv ⟨key, member⟩).2 ⟨key, member⟩).1 = .integer 0 := by
  constructor
  · show RespFrame.integer (saddLoop (skvLookup skv key) member).1 = _
    rw [saddLoop_count member (skvLookup skv key) hnd]
  · show RespFrame.integer
        (saddLoop (skvLookup (skvUpdate key (saddLoop (skvLookup skv key) member).2 skv) key)
          member).1 = _
    rw [skvLookup_update, saddLoop_count member _ hnd]
    have hnil : member.filter
        (fun m => !((saddLoop (skvLookup skv key) member).2).contains m) = [] := by
      rw [List.filter_eq_nil_iff]
      intro a ha
      have hmem := saddLoop_mem member (skvLookup skv key) a ha
      rw [(listContains_iff _ a).mpr hmem]
      simp
    rw [hnil]
    rfl

/-- C6 witness: the spec's own scenario — `sadd myset one two` on a fresh
backend, executed twice. -/
theorem c6_sadd_witness :
    ([some [111, 110, 101], some [116, 119, 111]] : List (Option ByteSeq)).Nodup
  ∧ ((executeSAdd [] ⟨[109, 121, 115, 101, 116], [some [111, 110, 101], some [116, 119, 111]]⟩).1
        = .integer 2
    ∧ (executeSAdd
        (executeSAdd [] ⟨[109, 121, 115, 101, 116],
          [some [111, 110, 101], some [116, 119, 111]]⟩).2
        ⟨[109, 121, 115, 101, 116], [some [111, 110, 101], some [116, 119, 111]]⟩).1
        = .integer 0) := by
  refine ⟨by decide, ?_⟩
  have h := c6_sadd_counts_new_members [] [109, 121, 115, 101, 116]
    [some [111, 110, 101], some [116, 119, 111]] (by decide)
  exact ⟨h.1.trans rfl, h.2⟩

/-- C7 counterexample: the claim places `x = 0.0` outside the scientific
range (`0 < |x|` fails), predicting the plain `+`-prefixed form, but the
encoder's test `self.abs() < 1e-8` has no zero guard, so `0.0` takes the
scientific branch (the repository's own test pins `encode(0.0)` to
`,0e0\r\n`). -/
theorem c7_zero_encodes_scientific :
    f64EncodeShape (.num 0) = (true, false) ∧ specDoubleScientific (.num 0) = false := by
  constructor
  · simp only [f64EncodeShape, f64IsScientific, f64GtQ, f64LtQ, f64Abs, abs_zero]
    norm_num
  · simp only [specDoubleScientific, f64GtQ, f64LtQ, f64Abs, abs_zero]
    norm_num

/-- C7 (amended): the scientific form is taken exactly when `|x| > 1e8` or
`|x| < 1e-8` — with zero inside the second range — and otherwise the plain
form carries a `+` exactly for non-negative finite values (none for
negative or NaN). -/
theorem c7_double_encoding_shape (x : F64) :
    ((f64EncodeShape x).1 = specDoubleScientificAmended x)
  ∧ ((f64EncodeShape x).1 = false → (f64EncodeShape x).2 = specPlusSign x)
  ∧ (f64EncodeShape (.num 0)).1 = true := by
  have hzero : (f64EncodeShape (.num 0)).1 = true := by
    simp only [f64EncodeShape, f64IsScientific, f64GtQ, f64LtQ, f64Abs, abs_zero]
    norm_num
  refine ⟨?_, ?_, hzero⟩
  · cases x with
    | nan => rfl
    | inf => rfl
    | neginf => rfl
    | num q =>
      simp only [f64EncodeShape, f64IsScientific, f64GtQ, f64LtQ, f64Abs,
        specDoubleScientificAmended]
      split_ifs with h
      · exact h.symm
      · simp only [Bool.not_eq_true] at h
        exact h.symm
  · intro h
    cases x with
    | nan => rfl
    | inf => simp [f64EncodeShape, f64IsScientific, f64GtQ, f64Abs] at h
    | neginf => simp [f64EncodeShape, f64IsScientific, f64GtQ, f64Abs] at h
    | num q =>
      by_cases hs : f64IsScientific (.num q)
      · simp [f64EncodeShape, hs] at h
      · simp only [f64EncodeShape, if_neg hs]
        simp only [f64LtQ, f64IsNan, Bool.or_false, specPlusSign]
        rcases lt_or_le q 0 with hq | hq
        · rw [decide_eq_true hq, decide_eq_false (not_le.mpr hq)]
          rfl
        · rw [decide_eq_false (not_lt.mpr hq), decide_eq_true hq]
          rfl

/-- C7 witness for the amended plain-form clause, at `x = 1`. -/
theorem c7_double_encoding_shape_witness :
    (f64EncodeShape (.num 1)).1 = false ∧ (f64EncodeShape (.num 1)).2 = specPlusSign (.num 1) := by
  have h1 : (f64EncodeShape (.num 1)).1 = false := by
    simp only [f64EncodeShape, f64IsScientific, f64GtQ, f64LtQ, f64Abs]
    norm_num
  exact ⟨h1, (c7_double_encoding_shape (.num 1)).2.1 h1⟩

/-- C8 counterexample: the claim says the SET value slot accepts any frame,
but `TryFrom<RespArray> for Set` requires a BulkString value:
`["set", "k", Integer(5)]` is rejected with `InvalidArgument`. -/
theorem c8_set_value_must_be_bulk :
    Set_tryFrom [.bulkString (some [115, 101, 116]), .bulkString (some [107]), .integer 5]
      = .error .InvalidArgument :=
  rfl

/-- C8 (amended): only HSET's value slot accepts any frame; SET's value
must be a BulkString, every other frame in that slot is `InvalidArgument`. -/
theorem c8_hset_any_value_set_bulk_only :
    (∀ (key field : ByteSeq) (v : RespFrame), validUtf8 key = true → validUtf8 field = true →
      HSet_tryFrom [.bulkString (some bHSet), .bulkString (some key),
          .bulkString (some field), v]
        = .ok ⟨key, field, v⟩)
  ∧ (∀ (key : ByteSeq) (v : RespFrame), (∀ b, v ≠ .bulkString b) →
      Set_tryFrom [.bulkString (some bSet), .bulkString (some key), v]
        = .error .InvalidArgument) := by
  constructor
  · intro key field v hk hf
    simp [HSet_tryFrom, validate_command, extract_args, stringFromUtf8, hk, hf,
      asciiLower, bulkToVec, bHSet]
  · intro key v hv
    cases v with
    | bulkString b => exact absurd rfl (hv b)
    | _ => rfl

/-- C8 witness: `["hset", "k", "f", Integer(7)]` constructs an HSet whose
value is the integer frame. -/
theorem c8_hset_any_value_witness :
    HSet_tryFrom [.bulkString (some bHSet), .bulkString (some [107]),
        .bulkString (some [102]), .integer 7]
      = .ok ⟨[107], [102], .integer 7⟩ :=
  (c8_hset_any_value_set_bulk_only.1 [107] [102] (.integer 7) (by decide) (by decide))

/-- C9: whenever the element region of a Set wire form plainly decodes to
the frame sequence `l`, and the element region of the de-duplicated wire
form plainly decodes to `dedupFirst l`, the set decode loop returns the
same first-seen-order duplicate-free sequence `dedupFirst l` on both:
later duplicates are dropped silently and the decode of the duplicated
encoding equals the decode of the de-duplicated one. -/
theorem c9_set_decode_dedups (fuel fuel2 n m : Nat) (buf buf2 : ByteSeq)
    (l : List RespFrame) (rest rest2 : ByteSeq)
    (h1 : v1DecodeFrames fuel n buf = .ok (l, rest))
    (h2 : v1DecodeFrames fuel2 m buf2 = .ok (dedupFirst l, rest2)) :
    v1SetLoop fuel n buf [] = .ok (dedupFirst l, rest)
  ∧ v1SetLoop fuel2 m buf2 [] = .ok (dedupFirst l, rest2) := by
  constructor
  · exact v1SetLoop_dedup n fuel buf [] l rest h1
  · have h := v1SetLoop_dedup m fuel2 buf2 [] (dedupFirst l) rest2 h2
    rw [show dedupAcc [] (dedupFirst l) = dedupFirst (dedupFirst l) from rfl,
      dedupFirst_idem] at h
    exact h

/-- C9 witness: the wire forms `~3\r\n+foo\r\n+foo\r\n+bar\r\n` and
`~2\r\n+foo\r\n+bar\r\n` decode to the same two-element set `{foo, bar}`
in first-seen order, via the loop theorem and via the full decoder. -/
theorem c9_set_decode_dedups_witness :
    v1DecodeFrames 50 3
        [43, 102, 111, 111, 13, 10, 43, 102, 111, 111, 13, 10, 43, 98, 97, 114, 13, 10]
      = .ok ([.simpleString [102, 111, 111], .simpleString [102, 111, 111],
          .simpleString [98, 97, 114]], [])
  ∧ v1DecodeFrames 50 2 [43, 102, 111, 111, 13, 10, 43, 98, 97, 114, 13, 10]
      = .ok (dedupFirst [.simpleString [102, 111, 111], .simpleString [102, 111, 111],
          .simpleString [98, 97, 114]], [])
  ∧ v1SetLoop 50 3
        [43, 102, 111, 111, 13, 10, 43, 102, 111, 111, 13, 10, 43, 98, 97, 114, 13, 10] []
      = .ok (dedupFirst [.simpleString [102, 111, 111], .simpleString [102, 111, 111],
          .simpleString [98, 97, 114]], [])
  ∧ v1SetLoop 50 2 [43, 102, 111, 111, 13, 10, 43, 98, 97, 114, 13, 10] []
      = .ok (dedupFirst [.simpleString [102, 111, 111], .simpleString [102, 111, 111],
          .simpleString [98, 97, 114]], [])
  ∧ v1SetDecode 100
        [126, 51, 13, 10, 43, 102, 111, 111, 13, 10, 43, 102, 111, 111, 13, 10,
          43, 98, 97, 114, 13, 10]
      = v1SetDecode 100 [126, 50, 13, 10, 43, 102, 111, 111, 13, 10, 43, 98, 97, 114, 13, 10] := by
  have h := c9_set_decode_dedups 50 50 3 2
    [43, 102, 111, 111, 13, 10, 43, 102, 111, 111, 13, 10, 43, 98, 97, 114, 13, 10]
    [43, 102, 111, 111, 13, 10, 43, 98, 97, 114, 13, 10]
    [.simpleString [102, 111, 111], .simpleString [102, 111, 111],
      .simpleString [98, 97, 114]] [] [] rfl rfl
  exact ⟨rfl, rfl, h.1, h.2, rfl⟩

/-- C10: the SADD conversion gathers members into a hash set, collapsing
repeated byte sequences, so `SADD k m m` on a key not containing `m`
parses to a single-member command and replies `Integer(1)`. -/
theorem c10_sadd_members_collapsed (k : ByteSeq) (b : Option ByteSeq) (skv : SetStore)
    (hk : validUtf8 k = true) (hb : (skvLookup skv k).contains b = false) :
    SAdd_tryFrom [.bulkString (some bSAdd), .bulkString (some k),
        .bulkString b, .bulkString b]
      = .ok ⟨k, [b]⟩
  ∧ (executeSAdd skv ⟨k, [b]⟩).1 = .integer 1 := by
  constructor
  · simp [SAdd_tryFrom, validate_command, extract_args, stringFromUtf8, hk,
      collectMembers, hsInsert, asciiLower, bulkToVec, bSAdd]
  · show RespFrame.integer (saddLoop (skvLookup skv k) [b]).1 = _
    simp only [saddLoop, hb, Bool.false_eq_true, if_false]
    norm_num

/-- C10 witness: `sadd k m m` on the empty backend replies `Integer(1)`. -/
theorem c10_sadd_members_collapsed_witness :
    SAdd_tryFrom [.bulkString (some bSAdd), .bulkString (some [107]),
        .bulkString (some [109]), .bulkString (some [109])]
      = .ok ⟨[107], [some [109]]⟩
  ∧ (executeSAdd [] ⟨[107], [some [109]]⟩).1 = .integer 1 :=
  c10_sadd_members_collapsed [107] (some [109]) [] (by decide) (by decide)
